import Mathlib

/-!
# Verification of the BoreholeInterpreter CPT derived-parameter engine

A shallow embedding of the CPT probe class (`src/classes/CPT.py`) and the
soil-classification pass (`src/classes/CPT_SoilClassification.py`).

Conventions used by the embedding:

* machine floats are modelled as rationals (`ℚ`); the float literal
  `0.000001` used by the duplicate-depth nudge becomes `1/1000000`;
* a pandas `Series` becomes a list of (depth, value) pairs; the depth index
  is the list of first components;
* attribute presence/absence (the `hasattr`-based caching of the source)
  becomes `Option`-valued fields of an explicit probe state;
* a Python method that can raise becomes a function into
  `Except (String × CPTState) CPTState`: the error also carries the state
  at the moment the exception escapes, so that partial mutation before an
  exception is observable;
* error strings keep the fixed part of the source's messages; the
  interpolated point identifier is omitted (the model carries no identity);
* pandas binary operations between two series align by index; the class
  keeps equal indices for all operands combined together (its documented
  invariant), and the embedding specializes alignment to that equal-index
  case (positional `zipWith`);
* the soil-classification pass reads its zone atlas from a SQLite database
  that ships with the repository outside `src/`; the atlas is therefore a
  parameter (a list of zones per graph, each zone carrying its bounding-box
  test and its polygon-containment test per sample), while the control flow
  of `calculate_soil_classification` is translated from the source.
-/

namespace BoreholeInterpreter

/-- A pandas Series of floats indexed by depth: (depth, value) pairs. -/
abbrev Series := List (ℚ × ℚ)

/-- `GLOBAL_unit_weight_of_water = 10` from `CPT.py` line 22. -/
def GLOBAL_unit_weight_of_water : ℚ := 10

/-- Depth index of a series (`series.index`). -/
def depth_index (ser : Series) : List ℚ := ser.map Prod.fst

/-- Running cumulative sum starting from accumulator `a` (`Series.cumsum`). -/
def cumsum_from (a : ℚ) : List ℚ → List ℚ
  | [] => []
  | x :: rest => (a + x) :: cumsum_from (a + x) rest

/-- `pandas.Series.cumsum`. -/
def cumsum (l : List ℚ) : List ℚ := cumsum_from 0 l

/-- The in-place duplicate-depth nudge of `_calculate_total_stress`
(`CPT.py` lines 641-643): walking rows from the second one, a row whose
depth equals the (already nudged) previous row's depth gets `+ 0.000001`. -/
def nudge_aux (prev : ℚ) : List (ℚ × ℚ) → List (ℚ × ℚ)
  | [] => []
  | (x, y) :: rest =>
    let x' := if x = prev then x + 1 / 1000000 else x
    (x', y) :: nudge_aux x' rest

/-- Duplicate-depth nudge applied to a whole unit-weight table. -/
def nudge_unit_weight : List (ℚ × ℚ) → List (ℚ × ℚ)
  | [] => []
  | (x, y) :: rest => (x, y) :: nudge_aux x rest

/-- `numpy.interp z xs fp` for an (xs-ascending) breakpoint table: linear
interpolation clamped to the end values outside the table's range. -/
def np_interp (z : ℚ) : List (ℚ × ℚ) → ℚ
  | [] => 0
  | [(_, y)] => y
  | (x0, y0) :: rest@((x1, y1) :: _) =>
    if z ≤ x0 then y0
    else if z ≤ x1 then y0 + (z - x0) * (y1 - y0) / (x1 - x0)
    else np_interp z rest

/-- Total-stress values of `_calculate_total_stress` (`CPT.py` lines
640-660): the first entry is `depth₀ * unit_weight_dataset[0, 1]` (the
first breakpoint value of the profile, not an interpolated value), each
further entry is `(depthᵢ - depthᵢ₋₁) * interp(depthᵢ)` over the nudged
profile, and the series is the cumulative sum of those entries. -/
def total_stress_values (depths : List ℚ) (uw : List (ℚ × ℚ)) : List ℚ :=
  match depths, uw with
  | d0 :: drest, (_, y0) :: _ =>
    let nudged := nudge_unit_weight uw
    cumsum (d0 * y0 ::
      List.zipWith (fun a b => (b - a) * np_interp b nudged) (d0 :: drest) drest)
  | _, _ => []

/-- The total-stress rule as the specification words it (spec §4.2 and
claim C2): the value at the shallowest sample is
`depth₀ × unitweight(depth₀)` with the unit weight linearly interpolated
(clamped at range ends) at the shallowest sample; increments as in the
source. Stated only to be compared with `total_stress_values`. -/
def spec_total_stress_values (depths : List ℚ) (uw : List (ℚ × ℚ)) : List ℚ :=
  match depths, uw with
  | d0 :: drest, _ :: _ =>
    let nudged := nudge_unit_weight uw
    cumsum (d0 * np_interp d0 nudged ::
      List.zipWith (fun a b => (b - a) * np_interp b nudged) (d0 :: drest) drest)
  | _, _ => []

/-! ## The probe state

One field per raw channel, scalar parameter and cached derived quantity of
`CPT`.  A `c_`-prefixed field models the private cache slot of the same
name (`_qt`, `_Rf`, ..., `_soil_classification`,
`_soil_classification_graph_data`); `none` models attribute absence. -/

structure CPTState where
  qc : Option Series
  fs : Option Series
  u2 : Option Series
  area_ratio : Option ℚ
  gwl : Option ℚ
  elevated_gwl : Option ℚ
  unit_weight : Option (List (ℚ × ℚ))
  holedepth : ℚ
  c_qt : Option Series
  c_Rf : Option Series
  c_Qt : Option Series
  c_Fr : Option Series
  c_Bq : Option Series
  c_Ic : Option Series
  c_total_stress : Option Series
  c_effective_stress : Option Series
  c_static_u0 : Option Series
  c_elevated_u0 : Option Series
  soil_classification_method : Option String
  c_soil_classification : Option (List (ℚ × Option String))
  c_graph_data : Option (List (ℚ × ℚ × ℚ))
  deriving DecidableEq, Repr

/-- The probe state right after `CPT.__init__`: no channels, no parameters,
no caches, `holedepth = 0`. -/
def initCPT : CPTState :=
  { qc := none, fs := none, u2 := none, area_ratio := none, gwl := none
    elevated_gwl := none, unit_weight := none, holedepth := 0
    c_qt := none, c_Rf := none, c_Qt := none, c_Fr := none, c_Bq := none
    c_Ic := none, c_total_stress := none, c_effective_stress := none
    c_static_u0 := none, c_elevated_u0 := none
    soil_classification_method := none, c_soil_classification := none
    c_graph_data := none }

/-- The dependency names understood by `CPT.listener_dependency`
(`CPT.py` lines 31-43).  The source dispatches on attribute-name strings;
the embedding uses an enumeration with the same names. -/
inductive Dep
  | qc | fs | u2 | qt | Rf | Qt | Fr | Bq | Ic
  | total_stress | effective_stress | static_u0 | elevated_u0
  deriving DecidableEq, Repr

/-- `delattr(self, "_" + dpd)` for one dependency name (a no-op when the
attribute is absent, hence unconditional `:= none`). -/
def clear_dep (s : CPTState) : Dep → CPTState
  | .qc => { s with qc := none }
  | .fs => { s with fs := none }
  | .u2 => { s with u2 := none }
  | .qt => { s with c_qt := none }
  | .Rf => { s with c_Rf := none }
  | .Qt => { s with c_Qt := none }
  | .Fr => { s with c_Fr := none }
  | .Bq => { s with c_Bq := none }
  | .Ic => { s with c_Ic := none }
  | .total_stress => { s with c_total_stress := none }
  | .effective_stress => { s with c_effective_stress := none }
  | .static_u0 => { s with c_static_u0 := none }
  | .elevated_u0 => { s with c_elevated_u0 := none }

/-- The deleter of the `classification` property (`CPT.py` lines 969-975):
drops the cached result and graph data, keeps the remembered method. -/
def del_classification (s : CPTState) : CPTState :=
  { s with c_soil_classification := none, c_graph_data := none }

/-- `CPT.listener_dependency` (`CPT.py` lines 31-43). -/
def listener_dependency (s : CPTState) (deps : List Dep)
    (reset_classification : Bool := true) : CPTState :=
  let s1 := deps.foldl clear_dep s
  if reset_classification && s1.soil_classification_method.isSome then
    del_classification s1
  else s1

/-- The deleter of the `qt` property (`CPT.py` lines 737-741). -/
def delete_qt (s : CPTState) : CPTState :=
  let s1 := listener_dependency s [.Rf, .Qt, .Fr, .Bq, .Ic]
  { s1 with c_qt := none }

/-- A classification callback standing for
`CPT_SoilClassification.calculate_soil_classification` as invoked through
the `try/except` of `_calculate_stress`: given the method name and the
probe state it returns the state as mutated by the classification pass
(its property reads may fill caches) and, on success, the computed
classification and graph data; `none` models a caught exception. -/
abbrev ClassifyFn :=
  String → CPTState →
    CPTState × Option (List (ℚ × Option String) × List (ℚ × ℚ × ℚ))

/-- A classification callback that always fails (used for concrete runs
whose probes carry no remembered method). -/
def cfNone : ClassifyFn := fun _ s => (s, none)

/-- The result of a mutation or read: `.error` carries the message and the
state left behind by the escaped exception. -/
abbrev CPTResult (α : Type) := Except (String × CPTState) α

/-- The depth discretization chosen by `_calculate_total_stress`
(`CPT.py` lines 632-638): the index of the first present raw channel in
the order qc, fs, u2, falling back to the unit-weight breakpoint depths. -/
def cpt_depth_source (s : CPTState) (uw : List (ℚ × ℚ)) : List ℚ :=
  match s.qc with
  | some q => depth_index q
  | none =>
    match s.fs with
    | some f => depth_index f
    | none =>
      match s.u2 with
      | some u => depth_index u
      | none => uw.map Prod.fst

/-- `CPT._calculate_total_stress` (`CPT.py` lines 623-660).  An empty
profile or an empty depth discretization hits a raw `IndexError` in the
source (`unit_weight_dataset[0, 1]` / `depth_index_series[0]`). -/
def calculate_total_stress (s : CPTState) : CPTResult CPTState :=
  match s.unit_weight with
  | none =>
    .error ("Unit weight not set. This is needed to calculate the total stress across depth.", s)
  | some uw =>
    match cpt_depth_source s uw, uw with
    | d0 :: ds, (_, _) :: _ =>
      .ok { s with
              c_total_stress :=
                some (List.zip (d0 :: ds) (total_stress_values (d0 :: ds) uw)) }
    | _, _ => .error ("IndexError", s)

/-- The pore-pressure series `u0` built by `_calculate_effective_stress`
(`CPT.py` lines 682-696): zero strictly above the groundwater level, else
`(z - gwl) * GLOBAL_unit_weight_of_water`. -/
def u0_series (gwl : ℚ) (depths : List ℚ) : Series :=
  depths.map fun z =>
    (z, if z < gwl then 0 else (z - gwl) * GLOBAL_unit_weight_of_water)

/-- Pointwise difference of two equal-index series (pandas `-`,
specialized to the equal-index case kept by the class). -/
def series_sub (a b : Series) : Series :=
  List.zipWith (fun p q => (p.1, p.2 - q.2)) a b

/-- `CPT._calculate_effective_stress` (`CPT.py` lines 662-702).  Note the
source reads `self._total_stress` without a `hasattr` guard: a missing
total-stress cache escapes as an `AttributeError`.  When both groundwater
levels exist both `u0` series are stored but the effective stress uses the
elevated one. -/
def calculate_effective_stress (s : CPTState) : CPTResult CPTState :=
  match s.unit_weight with
  | none =>
    .error ("Unit weight is not yet defined. This is needed to calculate the total/effective stress across depth.", s)
  | some _ =>
    if s.gwl = none ∧ s.elevated_gwl = none then
      .error ("Groundwater level is not yet defined. This is needed to calculate the effective stress across depth.", s)
    else
      match s.c_total_stress with
      | none => .error ("AttributeError: _total_stress", s)
      | some ts =>
        let depths := depth_index ts
        match s.elevated_gwl, s.gwl with
        | some eg, some g =>
          let e0 := u0_series eg depths
          let s0 := u0_series g depths
          .ok { s with c_elevated_u0 := some e0, c_static_u0 := some s0,
                       c_effective_stress := some (series_sub ts e0) }
        | some eg, none =>
          let e0 := u0_series eg depths
          .ok { s with c_elevated_u0 := some e0,
                       c_effective_stress := some (series_sub ts e0) }
        | none, some g =>
          let s0 := u0_series g depths
          .ok { s with c_static_u0 := some s0,
                       c_effective_stress := some (series_sub ts s0) }
        | none, none => .error ("unreachable", s)

/-- `CPT._calculate_stress` (`CPT.py` lines 613-621): total stress, then
effective stress when a groundwater level exists, then a `try/except
pass` re-classification when a method is remembered. -/
def calculate_stress (cf : ClassifyFn) (s : CPTState) : CPTResult CPTState :=
  match calculate_total_stress s with
  | .error e => .error e
  | .ok s1 =>
    match (if s1.gwl.isSome || s1.elevated_gwl.isSome then
             calculate_effective_stress s1
           else .ok s1) with
    | .error e => .error e
    | .ok s2 =>
      match s2.soil_classification_method with
      | some m =>
        match cf m s2 with
        | (s3, some (cls, gd)) =>
          .ok { s3 with soil_classification_method := some m,
                        c_soil_classification := some cls,
                        c_graph_data := some gd }
        | (s3, none) => .ok s3
      | none => .ok s2

/-- `CPT._validate_depth_index` (`CPT.py` lines 118-140), applied to the
labelled channels to check.  Returns the validation flag and the names of
the misaligned stored channels, in check order.  `pandas.Index.equals` is
order-sensitive list equality. -/
def validate_depth_index (newIndex : List ℚ)
    (checks : List (String × Option Series)) : Bool × List String :=
  let present := checks.filterMap fun p => p.2.map fun ser => (p.1, ser)
  let mis := present.filter fun p => !(newIndex = depth_index p.2 : Bool)
  (mis.isEmpty, mis.map Prod.fst)

/-- The `ValueError` message of the individual channel setters
(`CPT.py` lines 174-176, 227-229, 280-282). -/
def mismatch_error_msg (names : List String) : String :=
  "Error: Input data is mismatched with existing " ++
    String.intercalate ", " names ++
    " datasets.\nTo reset the whole raw dataset, use the raw_data property."

/-- Maximum of a list of rationals, `numpy`/pandas `.max()` style. -/
def list_max : List ℚ → ℚ
  | [] => 0
  | x :: xs => xs.foldl max x

/-- The setter of `raw_data` (`CPT.py` lines 66-107).  Ragged or empty
input fails the two-dimensionality check; fewer than 3 columns fails the
column check; otherwise qc and fs are replaced, u2 is replaced only when a
fourth column exists (an existing `_u2` is NOT removed otherwise), the
hole depth becomes the maximum depth, and the dependency listener evicts
the derived caches.  The trailing stress recomputation is guarded by
`hasattr(self, "_total_stress")`, which the listener has just made false. -/
def set_raw_data (cf : ClassifyFn) (rows : List (List ℚ)) (s : CPTState) :
    CPTResult CPTState :=
  match rows with
  | [] => .error ("The input array must be two-dimensional.", s)
  | r0 :: rest =>
    if !(rest.all fun r => r.length = r0.length) then
      .error ("The input array must be two-dimensional.", s)
    else if r0.length < 3 then
      .error ("The input array must have at least 3 columns: Depth, Cone penetration qc, and Sleeve friction fs. A fourth column may be given for porewater pressure u2.", s)
    else
      let col := fun (j : Nat) => rows.map fun r => r.getD j 0
      let mkser := fun (j : Nat) => List.zip (col 0) (col j)
      let s1 := { s with qc := some (mkser 1), fs := some (mkser 2),
                         u2 := if r0.length > 3 then some (mkser 3) else s.u2,
                         holedepth := list_max (col 0) }
      let s2 := listener_dependency s1
        [.qt, .Rf, .Qt, .Fr, .Bq, .Ic,
         .total_stress, .effective_stress, .static_u0, .elevated_u0]
      if s2.c_total_stress.isSome then calculate_stress cf s2 else .ok s2

/-- The deleter of `raw_data` (`CPT.py` lines 109-116). -/
def del_raw_data (s : CPTState) : CPTState :=
  let s1 := listener_dependency s
    [.qc, .fs, .u2, .total_stress, .effective_stress, .static_u0, .elevated_u0]
  delete_qt s1

/-- The setter of `qc` (`CPT.py` lines 157-188): validate against fs and
u2, remember whether the depth index is kept, store, bump the hole depth
by the series maximum (the source compares against the maximum of the
data values), evict through the `qt` deleter, and recompute stress when a
total-stress cache exists and the index changed. -/
def set_qc (cf : ClassifyFn) (rows : Series) (s : CPTState) :
    CPTResult CPTState :=
  let v := validate_depth_index (depth_index rows) [("fs", s.fs), ("u2", s.u2)]
  if !v.1 then .error (mismatch_error_msg v.2, s)
  else
    let keep := (validate_depth_index (depth_index rows) [("qc", s.qc)]).1
    let m := list_max (rows.map Prod.snd)
    let s1 := { s with qc := some rows,
                       holedepth := if s.holedepth < m then m else s.holedepth }
    let s2 := delete_qt s1
    if s2.c_total_stress.isSome && !keep then calculate_stress cf s2 else .ok s2

/-- The deleter of `qc` (`CPT.py` lines 190-193): the `qt` deleter runs
first; `del self._qc` then raises when qc is absent, with the evictions
already performed. -/
def del_qc (s : CPTState) : CPTResult CPTState :=
  let s1 := delete_qt s
  match s1.qc with
  | none => .error ("AttributeError: _qc", s1)
  | some _ => .ok { s1 with qc := none }

/-- The setter of `fs` (`CPT.py` lines 210-241). -/
def set_fs (cf : ClassifyFn) (rows : Series) (s : CPTState) :
    CPTResult CPTState :=
  let v := validate_depth_index (depth_index rows) [("qc", s.qc), ("u2", s.u2)]
  if !v.1 then .error (mismatch_error_msg v.2, s)
  else
    let keep := (validate_depth_index (depth_index rows) [("fs", s.fs)]).1
    let m := list_max (rows.map Prod.snd)
    let s1 := { s with fs := some rows,
                       holedepth := if s.holedepth < m then m else s.holedepth }
    let s2 := listener_dependency s1 [.Rf, .Fr, .Ic]
    if s2.c_total_stress.isSome && !keep then calculate_stress cf s2 else .ok s2

/-- The deleter of `fs` (`CPT.py` lines 243-246). -/
def del_fs (s : CPTState) : CPTResult CPTState :=
  let s1 := listener_dependency s [.Rf, .Fr, .Ic]
  match s1.fs with
  | none => .error ("AttributeError: _fs", s1)
  | some _ => .ok { s1 with fs := none }

/-- The setter of `u2` (`CPT.py` lines 263-294). -/
def set_u2 (cf : ClassifyFn) (rows : Series) (s : CPTState) :
    CPTResult CPTState :=
  let v := validate_depth_index (depth_index rows) [("qc", s.qc), ("fs", s.fs)]
  if !v.1 then .error (mismatch_error_msg v.2, s)
  else
    let keep := (validate_depth_index (depth_index rows) [("u2", s.u2)]).1
    let m := list_max (rows.map Prod.snd)
    let s1 := { s with u2 := some rows,
                       holedepth := if s.holedepth < m then m else s.holedepth }
    let s2 := delete_qt s1
    if s2.c_total_stress.isSome && !keep then calculate_stress cf s2 else .ok s2

/-- The deleter of `u2` (`CPT.py` lines 296-299). -/
def del_u2 (s : CPTState) : CPTResult CPTState :=
  let s1 := delete_qt s
  match s1.u2 with
  | none => .error ("AttributeError: _u2", s1)
  | some _ => .ok { s1 with u2 := none }

/-- The setter of `area_ratio` (`CPT.py` lines 315-326): store, then run
the `qt` deleter. -/
def set_area_ratio (v : ℚ) (s : CPTState) : CPTState :=
  delete_qt { s with area_ratio := some v }

/-- The deleter of `area_ratio` (`CPT.py` lines 328-331). -/
def del_area_ratio (s : CPTState) : CPTResult CPTState :=
  let s1 := delete_qt s
  match s1.area_ratio with
  | none => .error ("AttributeError: _area_ratio", s1)
  | some _ => .ok { s1 with area_ratio := none }

/-- The setter of `gwl`, also reached through `static_gwl`
(`CPT.py` lines 347-358, 378-386): the level is stored FIRST, then the
effective-stress recomputation runs (and may raise, leaving the level
behind), then the listener evicts. -/
def set_gwl (v : ℚ) (s : CPTState) : CPTResult CPTState :=
  match calculate_effective_stress { s with gwl := some v } with
  | .error e => .error e
  | .ok s2 =>
    .ok (listener_dependency s2 [.static_u0, .effective_stress, .Qt, .Bq, .Ic])

/-- The deleter of `gwl` / `static_gwl` (`CPT.py` lines 360-363). -/
def del_gwl (s : CPTState) : CPTResult CPTState :=
  let s1 := listener_dependency s [.static_u0, .effective_stress, .Qt, .Bq, .Ic]
  match s1.gwl with
  | none => .error ("AttributeError: _gwl", s1)
  | some _ => .ok { s1 with gwl := none }

/-- The setter of `elevated_gwl` (`CPT.py` lines 481-496). -/
def set_elevated_gwl (v : ℚ) (s : CPTState) : CPTResult CPTState :=
  match calculate_effective_stress { s with elevated_gwl := some v } with
  | .error e => .error e
  | .ok s2 =>
    .ok (listener_dependency s2
      [.elevated_u0, .effective_stress, .Qt, .Bq, .Ic])

/-- The deleter of `elevated_gwl` (`CPT.py` lines 498-501). -/
def del_elevated_gwl (s : CPTState) : CPTResult CPTState :=
  let s1 := listener_dependency s [.elevated_u0, .effective_stress, .Qt, .Bq, .Ic]
  match s1.elevated_gwl with
  | none => .error ("AttributeError: _elevated_gwl", s1)
  | some _ => .ok { s1 with elevated_gwl := none }

/-- The setter of `unit_weight` (`CPT.py` lines 410-450): a scalar becomes
the constant table over depths 0-9999; the listener evicts; then
`_calculate_stress` recomputes unconditionally. -/
def set_unit_weight (cf : ClassifyFn) (v : ℚ ⊕ List (ℚ × ℚ)) (s : CPTState) :
    CPTResult CPTState :=
  let uw := match v with
    | .inl x => [((0 : ℚ), x), (9999, x)]
    | .inr l => l
  let s1 := { s with unit_weight := some uw }
  let s2 := listener_dependency s1
    [.total_stress, .effective_stress, .Qt, .Fr, .Bq, .Ic]
  calculate_stress cf s2

/-- The deleter of `unit_weight` (`CPT.py` lines 452-458). -/
def del_unit_weight (s : CPTState) : CPTResult CPTState :=
  let s1 := listener_dependency s
    [.total_stress, .effective_stress, .Qt, .Fr, .Bq, .Ic]
  match s1.unit_weight with
  | none => .error ("AttributeError: _unit_weight", s1)
  | some _ => .ok { s1 with unit_weight := none }

/-- The getter of `qt` (`CPT.py` lines 704-735): cached value if present;
without an area ratio it returns `qc` (with a runtime warning) WITHOUT
caching; otherwise `qt = qc + (u2/1000)(1 - a)` (u2 taken as 0 where
absent) is computed, cached and returned. -/
def qt_get (s : CPTState) : CPTResult (Series × CPTState) :=
  match s.qc with
  | none =>
    .error ("Cone penetration, qc, is not yet defined. This is needed to calculate the corrected cone penetration, qt.", s)
  | some qcv =>
    match s.c_qt with
    | some v => .ok (v, s)
    | none =>
      match s.area_ratio with
      | none => .ok (qcv, s)
      | some a =>
        let qtv :=
          match s.u2 with
          | some u2v =>
            List.zipWith (fun p q => (p.1, p.2 + q.2 / 1000 * (1 - a))) qcv u2v
          | none => qcv.map fun p => (p.1, p.2 + 0 / 1000 * (1 - a))
        .ok (qtv, { s with c_qt := some qtv })

/-- The getter of `total_stress` (`CPT.py` lines 503-518): cached value or
a full `_calculate_stress` pass. -/
def total_stress_get (cf : ClassifyFn) (s : CPTState) :
    CPTResult (Series × CPTState) :=
  match s.c_total_stress with
  | some v => .ok (v, s)
  | none =>
    match calculate_stress cf s with
    | .error e => .error e
    | .ok s1 =>
      match s1.c_total_stress with
      | some v => .ok (v, s1)
      | none => .error ("unreachable", s1)

/-- The getter of `static_u0` (`CPT.py` lines 545-564). -/
def static_u0_get (cf : ClassifyFn) (s : CPTState) :
    CPTResult (Series × CPTState) :=
  match s.c_static_u0 with
  | some v => .ok (v, s)
  | none =>
    match s.gwl with
    | none => .error ("Groundwater level not set. This is needed to calculate u0.", s)
    | some _ =>
      match calculate_stress cf s with
      | .error e => .error e
      | .ok s1 =>
        match s1.c_static_u0 with
        | some v => .ok (v, s1)
        | none => .error ("AttributeError: _static_u0", s1)

/-- The getter of `elevated_u0` (`CPT.py` lines 588-607). -/
def elevated_u0_get (cf : ClassifyFn) (s : CPTState) :
    CPTResult (Series × CPTState) :=
  match s.c_elevated_u0 with
  | some v => .ok (v, s)
  | none =>
    match s.elevated_gwl with
    | none => .error ("Elevated groundwater level not set. This is needed to calculate elevated u0.", s)
    | some _ =>
      match calculate_stress cf s with
      | .error e => .error e
      | .ok s1 =>
        match s1.c_elevated_u0 with
        | some v => .ok (v, s1)
        | none => .error ("AttributeError: _elevated_u0", s1)

/-- The getter of `Bq` (`CPT.py` lines 863-911).  Order taken from the
source: cache check; qc / unit-weight / groundwater prerequisites; `qt`
read (or plain `qc` without an area ratio); when `u2` is absent an
all-undefined series is built HERE BUT IMMEDIATELY DISCARDED, because the
code continues; `total_stress` read; `_calculate_effective_stress` when no
`u0` cache exists; and then the unconditional `self.u2` read, which raises
whenever `u2` is absent.  The final value is
`(u2 - u0) / (qt·1000 - total_stress)` with the elevated `u0` preferred. -/
def Bq_get (cf : ClassifyFn) (s : CPTState) : CPTResult (Series × CPTState) :=
  match s.c_Bq with
  | some v => .ok (v, s)
  | none =>
    if s.qc = none then
      .error ("Cone penetration, qc, is not yet defined. This is needed to calculate the porewater pressure ratio, Bq.", s)
    else if s.unit_weight = none then
      .error ("Unit weight is not yet defined. This is needed to calculate the total stress and the porewater pressure ratio, Bq.", s)
    else if s.gwl = none ∧ s.elevated_gwl = none then
      .error ("Groundwater level is not yet defined. This is needed to calculate the porewater pressures.", s)
    else
      match (if s.area_ratio.isSome then qt_get s
             else .ok (s.qc.getD [], s)) with
      | .error e => .error e
      | .ok (s_qt, s1) =>
        match total_stress_get cf s1 with
        | .error e => .error e
        | .ok (ts, s2) =>
          match (if s2.c_elevated_u0 = none ∧ s2.c_static_u0 = none then
                   calculate_effective_stress s2
                 else .ok s2) with
          | .error e => .error e
          | .ok s3 =>
            match s3.u2 with
            | none => .error ("Pore pressure, u2, is not yet defined.", s3)
            | some u2v =>
              match (if s3.c_elevated_u0.isSome then elevated_u0_get cf s3
                     else static_u0_get cf s3) with
              | .error e => .error e
              | .ok (u0v, s4) =>
                let num := List.zipWith (fun p q => (p.1, p.2 - q.2)) u2v u0v
                let den := List.zipWith
                  (fun p q => (p.1, p.2 * 1000 - q.2)) s_qt ts
                let bqv := List.zipWith
                  (fun p q => (p.1, p.2 / q.2)) num den
                .ok (bqv, { s4 with c_Bq := some bqv })

/-! ## The soil-classification pass

`CPT_SoilClassification.calculate_soil_classification`
(`CPT_SoilClassification.py` lines 110-312).  The zone atlas lives in the
repository's SQLite database; a `Zone` abstracts one atlas entry for a
fixed probe: `inb i` is the bounding-box quick check of sample `i`
(`min/max` comparison of both coordinates, false on NaN per pandas
comparison semantics) and `inpoly i` the log-transformed polygon
containment test (false on NaN coordinates,
`_parallel_is_point_in_polygon`). -/

structure Zone where
  zone_no : String
  inb : Nat → Bool
  inpoly : Nat → Bool

/-- The method label carrying the deferral special case. -/
def METHOD_R86 : String := "Robertson et al 1986"

/-- The combined-zone label of the first Robertson et al 1986 graph. -/
def COMBINED_ZONE : String := "9,10,11,12"

/-- The samples passing the quick bounding-box check of a zone: still
unassigned and inside the zone's bounds. -/
def zone_inbounds (asg : List (Option String)) (z : Zone) :
    List (Nat × Option String) :=
  asg.enum.filter fun p => p.2.isNone && z.inb p.1

/-- The samples the polygon test places in the zone (among the unassigned
in-bounds candidates): `recalc_segment` of the source. -/
def zone_polygon_hits (asg : List (Option String)) (z : Zone) : List Nat :=
  (asg.enum.filter fun p => p.2.isNone && z.inb p.1 && z.inpoly p.1).map
    Prod.fst

/-- Storing one zone's result
(`df_soil_zones["Soil Zone Number"].loc[bool_series_inbounds] =
np.where(bool_is_in_polygon, k, pd.NA)`): an unassigned in-bounds sample
gets the zone number when the polygon test hits, and is re-set to
NA otherwise; every other sample keeps its value. -/
def assign_zone (z : Zone) (asg : List (Option String)) :
    List (Option String) :=
  asg.enum.map fun p =>
    if p.2.isNone && z.inb p.1 then
      (if z.inpoly p.1 then some z.zone_no else none)
    else p.2

/-- Processing one zone of one graph (loop body, lines 230-285): skip when
no unassigned sample is in bounds; defer (recording `recalc_segment`)
for the combined zone of Robertson et al 1986; otherwise store. -/
def process_zone (method : String)
    (st : List (Option String) × Option (List Nat)) (z : Zone) :
    List (Option String) × Option (List Nat) :=
  if (zone_inbounds st.1 z).isEmpty then st
  else if method = METHOD_R86 ∧ z.zone_no = COMBINED_ZONE then
    (st.1, some (zone_polygon_hits st.1 z))
  else
    (assign_zone z st.1, st.2)

/-- Processing all zones of one graph in atlas order. -/
def process_graph (method : String)
    (st : List (Option String) × Option (List Nat)) (g : List Zone) :
    List (Option String) × Option (List Nat) :=
  g.foldl (process_zone method) st

/-- Processing all graphs in order. -/
def process_graphs (method : String) (graphs : List (List Zone))
    (st : List (Option String) × Option (List Nat)) :
    List (Option String) × Option (List Nat) :=
  graphs.foldl (process_graph method) st

/-- The concrete zone numbers the fixup keeps
(`isin(["9", "10", "11", "12"])`). -/
def concrete_zones_9_12 : List (Option String) :=
  [some "9", some "10", some "11", some "12"]

/-- The post-pass fixup (lines 290-305): every deferred sample keeps its
current zone number when it is one of 9/10/11/12 and is finalized as the
combined zone otherwise; all other samples are untouched. -/
def fixup_R86 (method : String)
    (st : List (Option String) × Option (List Nat)) : List (Option String) :=
  if method = METHOD_R86 then
    match st.2 with
    | some l =>
      st.1.enum.map fun p =>
        if l.contains p.1 then
          (if concrete_zones_9_12.contains p.2 then p.2
           else some COMBINED_ZONE)
        else p.2
    | none => st.1
  else st.1

/-- The zone-number column computed by `calculate_soil_classification` for
`n` depth samples against the given atlas: all samples start unassigned
(`pd.NA`), the graphs are processed in order, then the Robertson et al
1986 fixup runs. -/
def soil_zone_numbers (method : String) (graphs : List (List Zone))
    (n : Nat) : List (Option String) :=
  fixup_R86 method
    (process_graphs method graphs (List.replicate n none, none))

/-- The compare-data coordinates of the Eslami Fellenius branch
(`CPT_SoilClassification.py` lines 175-181): x is the probe's `fs`, y is
`qt - u2/1000` when a `u2` channel exists and plain `qt` otherwise; both
read through the probe's property getters. -/
def eslami_compare_data (s : CPTState) :
    CPTResult (Series × Series × CPTState) :=
  match s.fs with
  | none => .error ("Sleeve friction, fs, is not yet defined.", s)
  | some fsv =>
    match s.u2 with
    | some u2v =>
      match qt_get s with
      | .error e => .error e
      | .ok (qtv, s1) =>
        .ok (fsv,
             List.zipWith (fun p q => (p.1, p.2 - q.2 / 1000)) qtv u2v, s1)
    | none =>
      match qt_get s with
      | .error e => .error e
      | .ok (qtv, s1) => .ok (fsv, qtv, s1)

/-- `calculate_soil_classification` for the Eslami Fellenius method
against an abstract one-graph atlas: compute the compare data, classify
every sample of the qc index, and store the method name, the
classification column and the graph data on the probe (lines 307-310).
The effective cone resistance `qE` appears only inside the stored graph
data; no probe cache field is written apart from the `qt` cache that the
`qt` property getter itself may fill. -/
def calculate_soil_classification_eslami (zones : List Zone) (s : CPTState) :
    CPTResult CPTState :=
  match s.qc with
  | none => .error ("Cone penetration, qc, is not yet defined.", s)
  | some qcv =>
    match eslami_compare_data s with
    | .error e => .error e
    | .ok (xv, yv, s1) =>
      let n := qcv.length
      let numbers := soil_zone_numbers "Eslami Fellenius" [zones] n
      let cls := List.zip (depth_index qcv) numbers
      let gd := List.zip (depth_index qcv)
        (List.zip (xv.map Prod.snd) (yv.map Prod.snd))
      .ok { s1 with soil_classification_method := some "Eslami Fellenius",
                    c_soil_classification := some cls,
                    c_graph_data := some gd }

/-- The ten derived-quantity cache slots of a probe, in the order
qt, Rf, Qt, Fr, Bq, Ic, total_stress, effective_stress, static_u0,
elevated_u0 (the quantities of the spec's §4.3 table). -/
def caches (s : CPTState) : List (Option Series) :=
  [s.c_qt, s.c_Rf, s.c_Qt, s.c_Fr, s.c_Bq, s.c_Ic,
   s.c_total_stress, s.c_effective_stress, s.c_static_u0, s.c_elevated_u0]

/-- Whether a stored channel (when present) disagrees with the new data's
depth index under the order-sensitive `pandas.Index.equals` comparison. -/
def channel_misaligned (rows : Series) (stored : Option Series) : Bool :=
  match stored with
  | none => false
  | some q => !(depth_index rows = depth_index q : Bool)

/-! ## Concrete states used by counterexamples and witnesses -/

/-- A probe with one qc sample, a two-breakpoint unit-weight profile and a
cached total stress (as produced by a prior read). -/
def uwCexState : CPTState :=
  { initCPT with qc := some [(1, 5)],
                 unit_weight := some [(0, 16), (9999, 16)],
                 holedepth := 1,
                 c_total_stress := some [(1, 16)],
                 soil_classification_method := some "Eslami Fellenius",
                 c_soil_classification := some [(1, some "1")],
                 c_graph_data := some [(1, 2, 3)] }

/-- A probe with only a qc channel at depths 1 and 2. -/
def qcOnlyState : CPTState :=
  { initCPT with qc := some [(1, 1.44), (2, 1.5)], holedepth := 2 }

/-- A probe whose shallowest qc sample (depth 1) lies beyond the first
unit-weight breakpoint of a non-constant profile. -/
def c2CexState : CPTState :=
  { initCPT with qc := some [(1, 5), (2, 6)],
                 unit_weight := some [(0, 10), (1, 20)],
                 holedepth := 2 }

/-- A non-piezo probe (qc but no u2) with unit weight and a static
groundwater level: the C5 scenario. -/
def bqCexState : CPTState :=
  { initCPT with qc := some [(1, 2)],
                 unit_weight := some [(0, 16), (9999, 16)],
                 gwl := some 0,
                 holedepth := 1 }

/-- A probe with both groundwater levels, a unit-weight profile and a
cached total stress: concrete input for the effective-stress law. -/
def c8State : CPTState :=
  { initCPT with qc := some [(1, 2), (3, 2)],
                 unit_weight := some [(0, 16), (9999, 16)],
                 gwl := some 2, elevated_gwl := some 1,
                 c_total_stress := some [(1, 16), (3, 48)],
                 holedepth := 3 }

/-- The probe `c8State` after `_calculate_effective_stress`. -/
def c8StateResult : CPTState :=
  { c8State with c_elevated_u0 := some [(1, 0), (3, 20)],
                 c_static_u0 := some [(1, 0), (3, 10)],
                 c_effective_stress := some [(1, 16), (3, 28)] }

/-- The 4-column raw dataset of the stale-u2 scenario. -/
def c4Rows1 : List (List ℚ) := [[0, 1, 2, 3], [1, 1, 2, 3]]

/-- The 3-column raw dataset of the stale-u2 scenario, at new depths. -/
def c4Rows2 : List (List ℚ) := [[5, 1, 2], [6, 1, 2]]

/-- A 4-column bulk assignment followed by a 3-column bulk assignment at
different depths. -/
def c4Run : CPTResult CPTState :=
  match set_raw_data cfNone c4Rows1 initCPT with
  | .ok s => set_raw_data cfNone c4Rows2 s
  | .error e => .error e

/-- The probe after the 4-column bulk assignment `c4Rows1` on a fresh
probe. -/
def c1SetRawResult : CPTState :=
  { initCPT with qc := some [(0, 1), (1, 1)], fs := some [(0, 2), (1, 2)],
                 u2 := some [(0, 3), (1, 3)], holedepth := 1 }

/-- The probe after the follow-up 3-column bulk assignment `c4Rows2`:
qc and fs moved to depths 5 and 6, the u2 channel left stale at depths
0 and 1. -/
def c4RunResult : CPTState :=
  { initCPT with qc := some [(5, 1), (6, 1)], fs := some [(5, 2), (6, 2)],
                 u2 := some [(0, 3), (1, 3)], holedepth := 6 }

/-- A piezocone probe for the Eslami Fellenius graph-data computation:
qc, fs and u2 share the single depth 1, no area ratio. -/
def eslamiState : CPTState :=
  { initCPT with qc := some [(1, 2)], fs := some [(1, 3)],
                 u2 := some [(1, 1000)], holedepth := 1 }

/-- The combined zone of a miniature Robertson et al 1986 first graph:
every sample is in bounds and inside the polygon. -/
def c3Comb : Zone :=
  { zone_no := COMBINED_ZONE, inb := fun _ => true, inpoly := fun _ => true }

/-- A concrete zone labelled "9" of a miniature second graph, hitting
only sample 0. -/
def c3Zone9 : Zone :=
  { zone_no := "9", inb := fun i => decide (i = 0),
    inpoly := fun i => decide (i = 0) }

/-- Whether a mutation/read result is an error. -/
def isError {α : Type} : CPTResult α → Bool
  | .error _ => true
  | .ok _ => false

/-- The message of an error result. -/
def errMsg {α : Type} : CPTResult α → Option String
  | .error e => some e.1
  | .ok _ => none

/-- The state carried by an error result. -/
def errState {α : Type} : CPTResult α → Option CPTState
  | .error e => some e.2
  | .ok _ => none

/-- The state of a successful mutation. -/
def okState : CPTResult CPTState → Option CPTState
  | .ok s => some s
  | .error _ => none

/-! # Theorems -/

/-! ## Helper lemmas about the numeric core -/

theorem cumsum_from_length (l : List ℚ) :
    ∀ a, (cumsum_from a l).length = l.length := by
  induction l with
  | nil => intro a; rfl
  | cons x rest ih => intro a; simp [cumsum_from, ih]

theorem cumsum_from_getD_step (l : List ℚ) :
    ∀ (a : ℚ) (i : ℕ), i + 1 < l.length →
      (cumsum_from a l).getD (i + 1) 0
        = (cumsum_from a l).getD i 0 + l.getD (i + 1) 0 := by
  induction l with
  | nil => intro a i h; simp at h
  | cons x rest ih =>
    intro a i h
    match i with
    | 0 =>
      cases rest with
      | nil => simp at h
      | cons y rest2 => simp [cumsum_from]
    | j + 1 =>
      have hj : j + 1 < rest.length := by
        simpa using Nat.lt_of_succ_lt_succ h
      simp only [cumsum_from, List.getD_cons_succ]
      exact ih (a + x) j hj

theorem cumsum_from_chain (l : List ℚ) :
    ∀ a, (∀ x ∈ l, 0 ≤ x) → List.Chain' (· ≤ ·) (a :: cumsum_from a l) := by
  induction l with
  | nil => intro a _; simp [cumsum_from]
  | cons x rest ih =>
    intro a h
    have hx : 0 ≤ x := h x (by simp)
    have hrec := ih (a + x) fun y hy => h y (by simp [hy])
    simp only [cumsum_from]
    exact List.chain'_cons.mpr ⟨by linarith, hrec⟩

theorem nudge_aux_map_snd (l : List (ℚ × ℚ)) :
    ∀ prev, (nudge_aux prev l).map Prod.snd = l.map Prod.snd := by
  induction l with
  | nil => intro _; rfl
  | cons hd tl ih =>
    intro prev
    obtain ⟨x, y⟩ := hd
    simp [nudge_aux, ih]

theorem nudge_map_snd (uw : List (ℚ × ℚ)) :
    (nudge_unit_weight uw).map Prod.snd = uw.map Prod.snd := by
  cases uw with
  | nil => rfl
  | cons hd tl =>
    obtain ⟨x, y⟩ := hd
    simp [nudge_unit_weight, nudge_aux_map_snd]

theorem nudge_nonneg (uw : List (ℚ × ℚ)) (h : ∀ p ∈ uw, 0 ≤ p.2) :
    ∀ p ∈ nudge_unit_weight uw, 0 ≤ p.2 := by
  intro p hp
  have hmem : p.2 ∈ (nudge_unit_weight uw).map Prod.snd :=
    List.mem_map_of_mem _ hp
  rw [nudge_map_snd] at hmem
  obtain ⟨q, hq, hqe⟩ := List.mem_map.mp hmem
  exact hqe ▸ h q hq

theorem np_interp_nonneg (z : ℚ) :
    ∀ tbl : List (ℚ × ℚ), (∀ p ∈ tbl, 0 ≤ p.2) → 0 ≤ np_interp z tbl := by
  intro tbl
  induction tbl with
  | nil => intro _; simp [np_interp]
  | cons hd tl ih =>
    intro hnn
    obtain ⟨x0, y0⟩ := hd
    cases tl with
    | nil => simpa [np_interp] using hnn (x0, y0) (by simp)
    | cons hd2 tl2 =>
      obtain ⟨x1, y1⟩ := hd2
      have hy0 : 0 ≤ y0 := hnn (x0, y0) (by simp)
      have hy1 : 0 ≤ y1 := hnn (x1, y1) (by simp)
      have htl : ∀ p ∈ (x1, y1) :: tl2, 0 ≤ p.2 := fun p hp =>
        hnn p (List.mem_cons_of_mem _ hp)
      simp only [np_interp]
      split_ifs with h1 h2
      · exact hy0
      · have hxz : x0 < z := not_le.mp h1
        have hx01 : x0 < x1 := lt_of_lt_of_le hxz h2
        have hne : x1 - x0 ≠ 0 := sub_ne_zero.mpr hx01.ne'
        have hkey : 0 ≤ (y0 * (x1 - z) + y1 * (z - x0)) / (x1 - x0) := by
          apply div_nonneg _ (by linarith)
          have h3 : 0 ≤ y0 * (x1 - z) := mul_nonneg hy0 (by linarith)
          have h4 : 0 ≤ y1 * (z - x0) := mul_nonneg hy1 (by linarith)
          linarith
        have heq : (y0 * (x1 - z) + y1 * (z - x0)) / (x1 - x0)
            = y0 + (z - x0) * (y1 - y0) / (x1 - x0) := by
          field_simp
          ring
        rw [heq] at hkey
        exact hkey
      · exact ih htl

theorem zipWith_increments_nonneg (g : ℚ → ℚ) (hg : ∀ b, 0 ≤ g b) :
    ∀ l : List ℚ, List.Chain' (· ≤ ·) l →
      ∀ z ∈ List.zipWith (fun a b => (b - a) * g b) l l.tail, 0 ≤ z := by
  intro l
  induction l with
  | nil => intro _ z hz; simp at hz
  | cons a rest ih =>
    intro hc z hz
    cases rest with
    | nil => simp at hz
    | cons b t =>
      simp only [List.tail_cons, List.zipWith_cons_cons, List.mem_cons] at hz
      rcases hz with hz | hz
      · have hab : a ≤ b := (List.chain'_cons.mp hc).1
        have := mul_nonneg (by linarith : (0 : ℚ) ≤ b - a) (hg b)
        simpa [hz] using this
      · exact ih (List.chain'_cons.mp hc).2 z (by simpa using hz)

/-- Sanity check against the repository's reference vector
`test_initialize_stress_4`. -/
example :
    total_stress_values [0, 2, 20] [(0, 14), (2, 14), (20, 15)]
      = [0, 28, 298] := by
  norm_num [total_stress_values, nudge_unit_weight, nudge_aux, np_interp,
    cumsum, cumsum_from]

/-- Sanity check against the repository's reference vector
`test_initialize_stress_5` (duplicate-depth profile). -/
example :
    total_stress_values [0.05, 0.1, 0.15, 0.2, 0.25, 0.3, 0.35, 0.4, 0.45]
      [(0, 14), (0.2, 14), (0.2, 15), (0.5, 15)]
      = [0.7, 1.4, 2.1, 2.8, 3.55, 4.3, 5.05, 5.8, 6.55] := by
  norm_num [total_stress_values, nudge_unit_weight, nudge_aux, np_interp,
    cumsum, cumsum_from]

theorem total_stress_values_length (d0 : ℚ) (ds : List ℚ) (x0 y0 : ℚ)
    (uwr : List (ℚ × ℚ)) :
    (total_stress_values (d0 :: ds) ((x0, y0) :: uwr)).length
      = ds.length + 1 := by
  simp only [total_stress_values, cumsum, cumsum_from_length, List.length_cons,
    List.length_zipWith]
  omega

/-! ## Claim C2 -/

/-- C2, counterexample.  For the probe `c2CexState` (qc sampled at depths
1 and 2, unit-weight breakpoints (0, 10) and (1, 20)), the source stores
the total-stress series [(1, 10), (2, 30)]: its first value is
`depth₀ × uw[0][1] = 1 × 10`, whereas the claim's formula
`depth₀ × unitweight(depth₀)` (interpolated, clamped) gives `1 × 20`, so
the claimed series would be [20, 40].  The claim is false as stated. -/
theorem C2_counterexample :
    okState (calculate_total_stress c2CexState)
        = some { c2CexState with c_total_stress := some [(1, 10), (2, 30)] } ∧
    spec_total_stress_values [1, 2] [(0, 10), (1, 20)] = [20, 40] ∧
    total_stress_values [1, 2] [(0, 10), (1, 20)]
      ≠ spec_total_stress_values [1, 2] [(0, 10), (1, 20)] := by
  refine ⟨?_, ?_, ?_⟩ <;>
    norm_num [okState, calculate_total_stress, cpt_depth_source, depth_index,
      c2CexState, initCPT, total_stress_values, spec_total_stress_values,
      nudge_unit_weight, nudge_aux, np_interp, cumsum, cumsum_from]

/-- C2 (amended): for every probe with a defined, non-empty unit-weight
profile, the stored total-stress series is the cumulative sum whose value
at the shallowest depth sample is `depth₀ × (the unit weight recorded at
the profile's FIRST BREAKPOINT)` — not the profile interpolated at the
shallowest sample — and each subsequent increment is
`(depthᵢ − depthᵢ₋₁) × unitweight(depthᵢ)`, the unit weight linearly
interpolated (clamped, over the duplicate-nudged profile) at the deeper
endpoint of the increment: a right-endpoint rule, not trapezoidal. -/
theorem C2_total_stress_amended (s s1 : CPTState) (uw : List (ℚ × ℚ))
    (x0 y0 : ℚ) (uwr : List (ℚ × ℚ)) (d0 : ℚ) (ds : List ℚ)
    (huw : s.unit_weight = some uw) (huw2 : uw = (x0, y0) :: uwr)
    (hds : cpt_depth_source s uw = d0 :: ds)
    (hok : calculate_total_stress s = .ok s1) :
    s1.c_total_stress
        = some (List.zip (d0 :: ds) (total_stress_values (d0 :: ds) uw)) ∧
    (total_stress_values (d0 :: ds) uw).head? = some (d0 * y0) ∧
    ∀ i, i + 1 < (d0 :: ds).length →
      (total_stress_values (d0 :: ds) uw).getD (i + 1) 0
        = (total_stress_values (d0 :: ds) uw).getD i 0
          + ((d0 :: ds).getD (i + 1) 0 - (d0 :: ds).getD i 0)
            * np_interp ((d0 :: ds).getD (i + 1) 0) (nudge_unit_weight uw) := by
  subst huw2
  have hrun : calculate_total_stress s
      = .ok { s with
                c_total_stress :=
                  some (List.zip (d0 :: ds)
                    (total_stress_values (d0 :: ds) ((x0, y0) :: uwr))) } := by
    simp [calculate_total_stress, huw, hds]
  rw [hrun] at hok
  have hs1 : s1 = { s with
      c_total_stress :=
        some (List.zip (d0 :: ds)
          (total_stress_values (d0 :: ds) ((x0, y0) :: uwr))) } :=
    (Except.ok.inj hok).symm
  subst hs1
  refine ⟨rfl, ?_, ?_⟩
  · simp [total_stress_values, cumsum, cumsum_from, List.head?_cons]
  · intro i hi
    have hi' : i < ds.length := Nat.lt_of_succ_lt_succ (by simpa using hi)
    have hstep := cumsum_from_getD_step
      (d0 * y0 ::
        List.zipWith
          (fun a b => (b - a) *
            np_interp b (nudge_unit_weight ((x0, y0) :: uwr)))
          (d0 :: ds) ds)
      0 i (by simp [List.length_zipWith]; omega)
    have hvals : total_stress_values (d0 :: ds) ((x0, y0) :: uwr)
        = cumsum_from 0
            (d0 * y0 ::
              List.zipWith
                (fun a b => (b - a) *
                  np_interp b (nudge_unit_weight ((x0, y0) :: uwr)))
                (d0 :: ds) ds) := by
      simp [total_stress_values, cumsum]
    rw [hvals, hstep]
    congr 1
    rw [List.getD_cons_succ]
    have hzb : i < (List.zipWith
        (fun a b => (b - a) *
          np_interp b (nudge_unit_weight ((x0, y0) :: uwr)))
        (d0 :: ds) ds).length := by
      simp [List.length_zipWith]; omega
    rw [List.getD_eq_getElem _ _ hzb, List.getElem_zipWith,
      List.getD_eq_getElem _ _ (by simp; omega : i < (d0 :: ds).length),
      List.getD_eq_getElem _ _ (by simp; omega : i + 1 < (d0 :: ds).length),
      List.getElem_cons_succ]

/-- Witness for `C2_total_stress_amended` at the concrete probe
`c2CexState`: the increment from depth 1 to depth 2. -/
theorem C2_witness :
    (total_stress_values [1, 2] [(0, 10), (1, 20)]).getD 1 0
      = (total_stress_values [1, 2] [(0, 10), (1, 20)]).getD 0 0
        + (([1, 2] : List ℚ).getD 1 0 - ([1, 2] : List ℚ).getD 0 0)
          * np_interp (([1, 2] : List ℚ).getD 1 0)
            (nudge_unit_weight [(0, 10), (1, 20)]) := by
  have h := C2_total_stress_amended c2CexState
    { c2CexState with
        c_total_stress :=
          some (List.zip ([1, 2] : List ℚ)
            (total_stress_values [1, 2] [(0, 10), (1, 20)])) }
    [(0, 10), (1, 20)] 0 10 [(1, 20)] 1 [2]
    (by norm_num [c2CexState, initCPT]) rfl
    (by norm_num [cpt_depth_source, c2CexState, initCPT, depth_index])
    (by norm_num [calculate_total_stress, cpt_depth_source, c2CexState,
      initCPT, depth_index])
  exact h.2.2 0 (by norm_num)

/-! ## Claim C9 -/

/-- C9: for every probe state whose depth discretization (the index of
the first present raw channel, else the profile breakpoints) is ascending
and whose unit-weight profile is non-negative at every breakpoint (hence,
by linear interpolation, non-negative everywhere), the computed
total-stress series is non-decreasing with depth. -/
theorem C9_total_stress_monotone (s s1 : CPTState) (uw : List (ℚ × ℚ))
    (huw : s.unit_weight = some uw)
    (hnn : ∀ p ∈ uw, 0 ≤ p.2)
    (hsorted : List.Chain' (· ≤ ·) (cpt_depth_source s uw))
    (hok : calculate_total_stress s = .ok s1) :
    ∃ ts, s1.c_total_stress = some ts
      ∧ List.Chain' (· ≤ ·) (ts.map Prod.snd) := by
  cases uw with
  | nil =>
    rw [calculate_total_stress.eq_def] at hok
    simp only [huw] at hok
    cases hsrc : cpt_depth_source s [] with
    | nil => rw [hsrc] at hok; simp at hok
    | cons d0 ds => rw [hsrc] at hok; simp at hok
  | cons hd uwr =>
    obtain ⟨x0, y0⟩ := hd
    cases hsrc : cpt_depth_source s ((x0, y0) :: uwr) with
    | nil =>
      rw [calculate_total_stress.eq_def] at hok
      simp only [huw] at hok
      rw [hsrc] at hok
      simp at hok
    | cons d0 ds =>
    have hrun : calculate_total_stress s
        = .ok { s with
                  c_total_stress :=
                    some (List.zip (d0 :: ds)
                      (total_stress_values (d0 :: ds) ((x0, y0) :: uwr))) } := by
      simp [calculate_total_stress, huw, hsrc]
    rw [hrun] at hok
    have hs1 : s1 = { s with
        c_total_stress :=
          some (List.zip (d0 :: ds)
            (total_stress_values (d0 :: ds) ((x0, y0) :: uwr))) } :=
      (Except.ok.inj hok).symm
    subst hs1
    refine ⟨_, rfl, ?_⟩
    have hlen : (total_stress_values (d0 :: ds) ((x0, y0) :: uwr)).length
        ≤ (d0 :: ds).length := by
      rw [total_stress_values_length]; simp
    rw [List.map_snd_zip _ _ hlen]
    have hincs : ∀ z ∈ List.zipWith
        (fun a b => (b - a) *
          np_interp b (nudge_unit_weight ((x0, y0) :: uwr)))
        (d0 :: ds) ds, 0 ≤ z := by
      have := zipWith_increments_nonneg
        (fun b => np_interp b (nudge_unit_weight ((x0, y0) :: uwr)))
        (fun b => np_interp_nonneg b _ (nudge_nonneg _ hnn))
        (d0 :: ds) (hsrc ▸ hsorted)
      simpa using this
    have hchain := cumsum_from_chain _ (0 + d0 * y0) fun z hz => hincs z hz
    have hvals : total_stress_values (d0 :: ds) ((x0, y0) :: uwr)
        = (0 + d0 * y0) :: cumsum_from (0 + d0 * y0)
            (List.zipWith
              (fun a b => (b - a) *
                np_interp b (nudge_unit_weight ((x0, y0) :: uwr)))
              (d0 :: ds) ds) := by
      simp [total_stress_values, cumsum, cumsum_from]
    rw [hvals]
    exact hchain

/-- Witness for `C9_total_stress_monotone` at the concrete probe
`c2CexState`. -/
theorem C9_witness :
    ∃ ts, ({ c2CexState with
               c_total_stress :=
                 some (List.zip ([1, 2] : List ℚ)
                   (total_stress_values [1, 2] [(0, 10), (1, 20)])) }
           : CPTState).c_total_stress = some ts
      ∧ List.Chain' (· ≤ ·) (ts.map Prod.snd) := by
  refine C9_total_stress_monotone c2CexState _ [(0, 10), (1, 20)]
    (by norm_num [c2CexState, initCPT]) ?_ ?_ ?_
  · intro p hp
    simp only [List.mem_cons, List.not_mem_nil, or_false] at hp
    rcases hp with h | h <;> simp [h]
  · norm_num [cpt_depth_source, c2CexState, initCPT, depth_index,
      List.chain'_cons]
  · norm_num [calculate_total_stress, cpt_depth_source, c2CexState,
      initCPT, depth_index]

/-! ## Frame lemmas: post-states of the probe mutations

One lemma per mutation describing exactly which cache slots the mutation
clears, recomputes or leaves alone.  They feed the invalidation claim and
the atomicity claim. -/

theorem del_raw_data_frame (s : CPTState) :
    caches (del_raw_data s) = List.replicate 10 none ∧
    (del_raw_data s).qc = none ∧ (del_raw_data s).fs = none ∧
    (del_raw_data s).u2 = none ∧
    (del_raw_data s).soil_classification_method
      = s.soil_classification_method ∧
    (s.soil_classification_method.isSome →
      (del_raw_data s).c_soil_classification = none ∧
      (del_raw_data s).c_graph_data = none) ∧
    (del_raw_data s).area_ratio = s.area_ratio ∧
    (del_raw_data s).gwl = s.gwl ∧
    (del_raw_data s).elevated_gwl = s.elevated_gwl ∧
    (del_raw_data s).unit_weight = s.unit_weight := by
  cases hm : s.soil_classification_method <;>
    simp [del_raw_data, delete_qt, listener_dependency, clear_dep,
      del_classification, caches, hm, List.replicate]

theorem del_qc_frame (s s1 : CPTState) (hok : del_qc s = .ok s1) :
    caches s1 = [none, none, none, none, none, none,
      s.c_total_stress, s.c_effective_stress,
      s.c_static_u0, s.c_elevated_u0] ∧
    s1.qc = none ∧ s1.fs = s.fs ∧ s1.u2 = s.u2 ∧
    s1.soil_classification_method = s.soil_classification_method ∧
    (s.soil_classification_method.isSome →
      s1.c_soil_classification = none ∧ s1.c_graph_data = none) := by
  cases hm : s.soil_classification_method <;>
    cases hqc : s.qc <;>
      simp only [del_qc, delete_qt, listener_dependency, clear_dep,
        del_classification, hm, hqc, List.foldl, Bool.and_self,
        Option.isSome_some, Option.isSome_none, Bool.and_false, Bool.and_true,
        if_true, if_false, reduceCtorEq] at hok ⊢ <;>
    (obtain rfl := (Except.ok.inj hok).symm
     simp [caches])

theorem del_fs_frame (s s1 : CPTState) (hok : del_fs s = .ok s1) :
    caches s1 = [s.c_qt, none, s.c_Qt, none, s.c_Bq, none,
      s.c_total_stress, s.c_effective_stress,
      s.c_static_u0, s.c_elevated_u0] ∧
    s1.fs = none ∧ s1.qc = s.qc ∧ s1.u2 = s.u2 ∧
    s1.soil_classification_method = s.soil_classification_method ∧
    (s.soil_classification_method.isSome →
      s1.c_soil_classification = none ∧ s1.c_graph_data = none) := by
  cases hm : s.soil_classification_method <;>
    cases hfs : s.fs <;>
      simp only [del_fs, listener_dependency, clear_dep,
        del_classification, hm, hfs, List.foldl, Bool.and_self,
        Option.isSome_some, Option.isSome_none, Bool.and_false, Bool.and_true,
        if_true, if_false, reduceCtorEq] at hok ⊢ <;>
    (obtain rfl := (Except.ok.inj hok).symm
     simp [caches])

theorem del_u2_frame (s s1 : CPTState) (hok : del_u2 s = .ok s1) :
    caches s1 = [none, none, none, none, none, none,
      s.c_total_stress, s.c_effective_stress,
      s.c_static_u0, s.c_elevated_u0] ∧
    s1.u2 = none ∧ s1.qc = s.qc ∧ s1.fs = s.fs ∧
    s1.soil_classification_method = s.soil_classification_method ∧
    (s.soil_classification_method.isSome →
      s1.c_soil_classification = none ∧ s1.c_graph_data = none) := by
  cases hm : s.soil_classification_method <;>
    cases hu2 : s.u2 <;>
      simp only [del_u2, delete_qt, listener_dependency, clear_dep,
        del_classification, hm, hu2, List.foldl, Bool.and_self,
        Option.isSome_some, Option.isSome_none, Bool.and_false, Bool.and_true,
        if_true, if_false, reduceCtorEq] at hok ⊢ <;>
    (obtain rfl := (Except.ok.inj hok).symm
     simp [caches])

theorem set_area_ratio_frame (v : ℚ) (s : CPTState) :
    caches (set_area_ratio v s) = [none, none, none, none, none, none,
      s.c_total_stress, s.c_effective_stress,
      s.c_static_u0, s.c_elevated_u0] ∧
    (set_area_ratio v s).area_ratio = some v ∧
    (set_area_ratio v s).qc = s.qc ∧ (set_area_ratio v s).fs = s.fs ∧
    (set_area_ratio v s).u2 = s.u2 ∧
    (set_area_ratio v s).soil_classification_method
      = s.soil_classification_method ∧
    (s.soil_classification_method.isSome →
      (set_area_ratio v s).c_soil_classification = none ∧
      (set_area_ratio v s).c_graph_data = none) := by
  cases hm : s.soil_classification_method <;>
    simp [set_area_ratio, delete_qt, listener_dependency, clear_dep,
      del_classification, caches, hm]

theorem del_area_ratio_frame (s s1 : CPTState)
    (hok : del_area_ratio s = .ok s1) :
    caches s1 = [none, none, none, none, none, none,
      s.c_total_stress, s.c_effective_stress,
      s.c_static_u0, s.c_elevated_u0] ∧
    s1.area_ratio = none ∧ s1.qc = s.qc ∧ s1.fs = s.fs ∧ s1.u2 = s.u2 ∧
    s1.soil_classification_method = s.soil_classification_method ∧
    (s.soil_classification_method.isSome →
      s1.c_soil_classification = none ∧ s1.c_graph_data = none) := by
  cases hm : s.soil_classification_method <;>
    cases har : s.area_ratio <;>
      simp only [del_area_ratio, delete_qt, listener_dependency, clear_dep,
        del_classification, hm, har, List.foldl, Bool.and_self,
        Option.isSome_some, Option.isSome_none, Bool.and_false, Bool.and_true,
        if_true, if_false, reduceCtorEq] at hok ⊢ <;>
    (obtain rfl := (Except.ok.inj hok).symm
     simp [caches])

theorem del_unit_weight_frame (s s1 : CPTState)
    (hok : del_unit_weight s = .ok s1) :
    caches s1 = [s.c_qt, s.c_Rf, none, none, none, none,
      none, none, s.c_static_u0, s.c_elevated_u0] ∧
    s1.unit_weight = none ∧ s1.qc = s.qc ∧ s1.fs = s.fs ∧ s1.u2 = s.u2 ∧
    s1.soil_classification_method = s.soil_classification_method ∧
    (s.soil_classification_method.isSome →
      s1.c_soil_classification = none ∧ s1.c_graph_data = none) := by
  cases hm : s.soil_classification_method <;>
    cases huw : s.unit_weight <;>
      simp only [del_unit_weight, listener_dependency, clear_dep,
        del_classification, hm, huw, List.foldl, Bool.and_self,
        Option.isSome_some, Option.isSome_none, Bool.and_false, Bool.and_true,
        if_true, if_false, reduceCtorEq] at hok ⊢ <;>
    (obtain rfl := (Except.ok.inj hok).symm
     simp [caches])

theorem del_gwl_frame (s s1 : CPTState) (hok : del_gwl s = .ok s1) :
    caches s1 = [s.c_qt, s.c_Rf, none, s.c_Fr, none, none,
      s.c_total_stress, none, none, s.c_elevated_u0] ∧
    s1.gwl = none ∧ s1.qc = s.qc ∧ s1.fs = s.fs ∧ s1.u2 = s.u2 ∧
    s1.elevated_gwl = s.elevated_gwl ∧
    s1.soil_classification_method = s.soil_classification_method ∧
    (s.soil_classification_method.isSome →
      s1.c_soil_classification = none ∧ s1.c_graph_data = none) := by
  cases hm : s.soil_classification_method <;>
    cases hg : s.gwl <;>
      simp only [del_gwl, listener_dependency, clear_dep,
        del_classification, hm, hg, List.foldl, Bool.and_self,
        Option.isSome_some, Option.isSome_none, Bool.and_false, Bool.and_true,
        if_true, if_false, reduceCtorEq] at hok ⊢ <;>
    (obtain rfl := (Except.ok.inj hok).symm
     simp [caches])

theorem del_elevated_gwl_frame (s s1 : CPTState)
    (hok : del_elevated_gwl s = .ok s1) :
    caches s1 = [s.c_qt, s.c_Rf, none, s.c_Fr, none, none,
      s.c_total_stress, none, s.c_static_u0, none] ∧
    s1.elevated_gwl = none ∧ s1.qc = s.qc ∧ s1.fs = s.fs ∧ s1.u2 = s.u2 ∧
    s1.gwl = s.gwl ∧
    s1.soil_classification_method = s.soil_classification_method ∧
    (s.soil_classification_method.isSome →
      s1.c_soil_classification = none ∧ s1.c_graph_data = none) := by
  cases hm : s.soil_classification_method <;>
    cases hg : s.elevated_gwl <;>
      simp only [del_elevated_gwl, listener_dependency, clear_dep,
        del_classification, hm, hg, List.foldl, Bool.and_self,
        Option.isSome_some, Option.isSome_none, Bool.and_false, Bool.and_true,
        if_true, if_false, reduceCtorEq] at hok ⊢ <;>
    (obtain rfl := (Except.ok.inj hok).symm
     simp [caches])

theorem set_raw_data_frame (cf : ClassifyFn) (rows : List (List ℚ))
    (s s1 : CPTState) (hok : set_raw_data cf rows s = .ok s1) :
    caches s1 = List.replicate 10 none ∧
    s1.soil_classification_method = s.soil_classification_method ∧
    (s.soil_classification_method.isSome →
      s1.c_soil_classification = none ∧ s1.c_graph_data = none) ∧
    s1.area_ratio = s.area_ratio ∧ s1.gwl = s.gwl ∧
    s1.elevated_gwl = s.elevated_gwl ∧ s1.unit_weight = s.unit_weight := by
  cases rows with
  | nil => simp [set_raw_data] at hok
  | cons r0 rest =>
    rw [set_raw_data] at hok
    split at hok
    · exact absurd hok (by simp)
    · split at hok
      · exact absurd hok (by simp)
      · cases hm : s.soil_classification_method <;>
          simp only [listener_dependency, clear_dep, del_classification, hm,
            List.foldl, Option.isSome_some, Option.isSome_none,
            Bool.and_false, Bool.and_true, Bool.true_and, Bool.false_and,
            if_true, if_false, Bool.false_eq_true, ite_false, ite_true] at hok
        <;> (obtain rfl := Except.ok.inj hok
             simp [caches, hm, List.replicate])

theorem set_qc_keep_frame (cf : ClassifyFn) (rows : Series)
    (s s1 : CPTState)
    (hkeep : (validate_depth_index (depth_index rows) [("qc", s.qc)]).1
      = true)
    (hok : set_qc cf rows s = .ok s1) :
    caches s1 = [none, none, none, none, none, none,
      s.c_total_stress, s.c_effective_stress,
      s.c_static_u0, s.c_elevated_u0] ∧
    s1.qc = some rows ∧ s1.fs = s.fs ∧ s1.u2 = s.u2 ∧
    s1.soil_classification_method = s.soil_classification_method ∧
    (s.soil_classification_method.isSome →
      s1.c_soil_classification = none ∧ s1.c_graph_data = none) := by
  rw [set_qc] at hok
  split at hok
  · exact absurd hok (by simp)
  · cases hm : s.soil_classification_method <;>
      simp only [hkeep, delete_qt, listener_dependency, clear_dep,
        del_classification, hm, List.foldl, Option.isSome_some,
        Option.isSome_none, Bool.not_true, Bool.and_false, Bool.and_true,
        Bool.true_and, Bool.false_and, if_true, if_false, Bool.false_eq_true,
        ite_false, ite_true] at hok
    <;> (obtain rfl := Except.ok.inj hok
         simp [caches, hm])

theorem set_fs_keep_frame (cf : ClassifyFn) (rows : Series)
    (s s1 : CPTState)
    (hkeep : (validate_depth_index (depth_index rows) [("fs", s.fs)]).1
      = true)
    (hok : set_fs cf rows s = .ok s1) :
    caches s1 = [s.c_qt, none, s.c_Qt, none, s.c_Bq, none,
      s.c_total_stress, s.c_effective_stress,
      s.c_static_u0, s.c_elevated_u0] ∧
    s1.fs = some rows ∧ s1.qc = s.qc ∧ s1.u2 = s.u2 ∧
    s1.soil_classification_method = s.soil_classification_method ∧
    (s.soil_classification_method.isSome →
      s1.c_soil_classification = none ∧ s1.c_graph_data = none) := by
  rw [set_fs] at hok
  split at hok
  · exact absurd hok (by simp)
  · cases hm : s.soil_classification_method <;>
      simp only [hkeep, listener_dependency, clear_dep,
        del_classification, hm, List.foldl, Option.isSome_some,
        Option.isSome_none, Bool.not_true, Bool.and_false, Bool.and_true,
        Bool.true_and, Bool.false_and, if_true, if_false, Bool.false_eq_true,
        ite_false, ite_true] at hok
    <;> (obtain rfl := Except.ok.inj hok
         simp [caches, hm])

theorem set_u2_keep_frame (cf : ClassifyFn) (rows : Series)
    (s s1 : CPTState)
    (hkeep : (validate_depth_index (depth_index rows) [("u2", s.u2)]).1
      = true)
    (hok : set_u2 cf rows s = .ok s1) :
    caches s1 = [none, none, none, none, none, none,
      s.c_total_stress, s.c_effective_stress,
      s.c_static_u0, s.c_elevated_u0] ∧
    s1.u2 = some rows ∧ s1.qc = s.qc ∧ s1.fs = s.fs ∧
    s1.soil_classification_method = s.soil_classification_method ∧
    (s.soil_classification_method.isSome →
      s1.c_soil_classification = none ∧ s1.c_graph_data = none) := by
  rw [set_u2] at hok
  split at hok
  · exact absurd hok (by simp)
  · cases hm : s.soil_classification_method <;>
      simp only [hkeep, delete_qt, listener_dependency, clear_dep,
        del_classification, hm, List.foldl, Option.isSome_some,
        Option.isSome_none, Bool.not_true, Bool.and_false, Bool.and_true,
        Bool.true_and, Bool.false_and, if_true, if_false, Bool.false_eq_true,
        ite_false, ite_true] at hok
    <;> (obtain rfl := Except.ok.inj hok
         simp [caches, hm])

theorem set_gwl_frame (v : ℚ) (s s1 : CPTState) (ts : Series)
    (hts : s.c_total_stress = some ts)
    (hok : set_gwl v s = .ok s1) :
    s1.c_static_u0 = none ∧ s1.c_effective_stress = none ∧
    s1.c_Qt = none ∧ s1.c_Bq = none ∧ s1.c_Ic = none ∧
    s1.c_qt = s.c_qt ∧ s1.c_Rf = s.c_Rf ∧ s1.c_Fr = s.c_Fr ∧
    s1.c_total_stress = some ts ∧
    (s.elevated_gwl = none → s1.c_elevated_u0 = s.c_elevated_u0) ∧
    (∀ eg, s.elevated_gwl = some eg →
      s1.c_elevated_u0 = some (u0_series eg (depth_index ts))) ∧
    s1.gwl = some v ∧ s1.qc = s.qc ∧ s1.fs = s.fs ∧ s1.u2 = s.u2 ∧
    s1.soil_classification_method = s.soil_classification_method ∧
    (s.soil_classification_method.isSome →
      s1.c_soil_classification = none ∧ s1.c_graph_data = none) := by
  cases huw : s.unit_weight <;>
    cases hel : s.elevated_gwl <;>
      cases hm : s.soil_classification_method <;>
        simp only [set_gwl, calculate_effective_stress, listener_dependency,
          clear_dep, del_classification, hts, huw, hel, hm, List.foldl,
          Option.isSome_some, Option.isSome_none, Bool.and_false,
          Bool.and_true, Bool.true_and, Bool.false_and, if_true, if_false,
          reduceCtorEq, false_and, and_false, ite_false, ite_true] at hok
      <;> (obtain rfl := Except.ok.inj hok
           simp [hm, hel])

theorem set_elevated_gwl_frame (v : ℚ) (s s1 : CPTState) (ts : Series)
    (hts : s.c_total_stress = some ts)
    (hok : set_elevated_gwl v s = .ok s1) :
    s1.c_elevated_u0 = none ∧ s1.c_effective_stress = none ∧
    s1.c_Qt = none ∧ s1.c_Bq = none ∧ s1.c_Ic = none ∧
    s1.c_qt = s.c_qt ∧ s1.c_Rf = s.c_Rf ∧ s1.c_Fr = s.c_Fr ∧
    s1.c_total_stress = some ts ∧
    (s.gwl = none → s1.c_static_u0 = s.c_static_u0) ∧
    (∀ g, s.gwl = some g →
      s1.c_static_u0 = some (u0_series g (depth_index ts))) ∧
    s1.elevated_gwl = some v ∧ s1.qc = s.qc ∧ s1.fs = s.fs ∧
    s1.u2 = s.u2 ∧ s1.gwl = s.gwl ∧
    s1.soil_classification_method = s.soil_classification_method ∧
    (s.soil_classification_method.isSome →
      s1.c_soil_classification = none ∧ s1.c_graph_data = none) := by
  cases huw : s.unit_weight <;>
    cases hg : s.gwl <;>
      cases hm : s.soil_classification_method <;>
        simp only [set_elevated_gwl, calculate_effective_stress,
          listener_dependency, clear_dep, del_classification, hts, huw, hg,
          hm, List.foldl, Option.isSome_some, Option.isSome_none,
          Bool.and_false, Bool.and_true, Bool.true_and, Bool.false_and,
          if_true, if_false, reduceCtorEq, false_and, and_false, ite_false,
          ite_true] at hok
      <;> (obtain rfl := Except.ok.inj hok
           simp [hm, hg])

theorem set_unit_weight_nochannel_frame (cf : ClassifyFn) (w : ℚ)
    (s s1 : CPTState)
    (hqc : s.qc = none) (hfs : s.fs = none) (hu2 : s.u2 = none)
    (hg : s.gwl = none) (hel : s.elevated_gwl = none)
    (hm : s.soil_classification_method = none)
    (hok : set_unit_weight cf (Sum.inl w) s = .ok s1) :
    s1.c_total_stress
        = some (List.zip ([0, 9999] : List ℚ)
            (total_stress_values [0, 9999] [(0, w), (9999, w)])) ∧
    s1.c_Qt = none ∧ s1.c_Fr = none ∧ s1.c_Bq = none ∧ s1.c_Ic = none ∧
    s1.c_effective_stress = none ∧
    s1.c_qt = s.c_qt ∧ s1.c_Rf = s.c_Rf ∧
    s1.c_static_u0 = s.c_static_u0 ∧ s1.c_elevated_u0 = s.c_elevated_u0 ∧
    s1.unit_weight = some [(0, w), (9999, w)] ∧
    s1.soil_classification_method = none := by
  simp only [set_unit_weight, calculate_stress, calculate_total_stress,
    cpt_depth_source, listener_dependency, clear_dep, del_classification,
    hqc, hfs, hu2, hg, hel, hm, List.foldl, List.map_cons, List.map_nil,
    Option.isSome_some, Option.isSome_none, Bool.and_false, Bool.and_true,
    Bool.true_and, Bool.false_and, Bool.or_self, if_true, if_false,
    Bool.false_eq_true, ite_false, ite_true] at hok
  obtain rfl := Except.ok.inj hok
  simp

theorem set_qc_changed_frame (cf : ClassifyFn) (rows : Series) (p : ℚ × ℚ)
    (prest : Series) (s s1 : CPTState) (ts0 : Series) (x0 y0 : ℚ)
    (uwr : List (ℚ × ℚ))
    (hrows : rows = p :: prest)
    (hfs : s.fs = none) (hu2 : s.u2 = none)
    (hts : s.c_total_stress = some ts0)
    (huw : s.unit_weight = some ((x0, y0) :: uwr))
    (hg : s.gwl = none) (hel : s.elevated_gwl = none)
    (hm : s.soil_classification_method = none)
    (hkeep : (validate_depth_index (depth_index rows) [("qc", s.qc)]).1
      = false)
    (hok : set_qc cf rows s = .ok s1) :
    s1.c_total_stress
        = some (List.zip (depth_index rows)
            (total_stress_values (depth_index rows) ((x0, y0) :: uwr))) ∧
    s1.c_qt = none ∧ s1.c_Rf = none ∧ s1.c_Qt = none ∧ s1.c_Fr = none ∧
    s1.c_Bq = none ∧ s1.c_Ic = none ∧
    s1.c_effective_stress = s.c_effective_stress ∧
    s1.c_static_u0 = s.c_static_u0 ∧ s1.c_elevated_u0 = s.c_elevated_u0 ∧
    s1.qc = some rows ∧ s1.fs = none ∧ s1.u2 = none ∧
    s1.soil_classification_method = none := by
  subst hrows
  have hv : (validate_depth_index (depth_index (p :: prest))
      [("fs", s.fs), ("u2", s.u2)]).1 = true := by
    simp [validate_depth_index, hfs, hu2]
  have hkeep2 := hkeep
  simp only [depth_index, List.map_cons] at hv hkeep2
  simp only [set_qc, hv, hkeep2, Bool.not_true, Bool.not_false,
    delete_qt, listener_dependency, clear_dep, del_classification, hm,
    List.foldl, Option.isSome_some, Option.isSome_none, Bool.and_false,
    Bool.and_true, Bool.true_and, Bool.false_and, Bool.and_self,
    if_true, if_false, Bool.false_eq_true, ite_false, ite_true,
    calculate_stress, calculate_total_stress, cpt_depth_source,
    depth_index, List.map_cons, huw, hg, hel, hts, Bool.or_self] at hok
  obtain rfl := Except.ok.inj hok
  simp [depth_index, hfs, hu2]

theorem delete_qt_proj (s : CPTState) :
    (delete_qt s).unit_weight = s.unit_weight ∧ (delete_qt s).qc = s.qc ∧
    (delete_qt s).fs = s.fs ∧ (delete_qt s).u2 = s.u2 ∧
    (delete_qt s).gwl = s.gwl ∧
    (delete_qt s).elevated_gwl = s.elevated_gwl ∧
    (delete_qt s).c_total_stress = s.c_total_stress ∧
    (delete_qt s).soil_classification_method
      = s.soil_classification_method := by
  cases hm : s.soil_classification_method <;>
    simp [delete_qt, listener_dependency, clear_dep, del_classification, hm]

theorem validate_two (rows : Series) (n1 n2 : String)
    (o1 o2 : Option Series) :
    (validate_depth_index (depth_index rows) [(n1, o1), (n2, o2)]).1
      = (!(channel_misaligned rows o1) && !(channel_misaligned rows o2)) ∧
    (validate_depth_index (depth_index rows) [(n1, o1), (n2, o2)]).2
      = ((if channel_misaligned rows o1 = true then [n1] else [])
         ++ (if channel_misaligned rows o2 = true then [n2] else [])) := by
  cases o1 with
  | none =>
    cases o2 with
    | none => simp [validate_depth_index, channel_misaligned]
    | some q2 =>
      cases e2 : decide (depth_index rows = depth_index q2) <;>
        simp [validate_depth_index, channel_misaligned, e2]
  | some q1 =>
    cases o2 with
    | none =>
      cases e1 : decide (depth_index rows = depth_index q1) <;>
        simp [validate_depth_index, channel_misaligned, e1]
    | some q2 =>
      cases e1 : decide (depth_index rows = depth_index q1) <;>
        cases e2 : decide (depth_index rows = depth_index q2) <;>
          simp [validate_depth_index, channel_misaligned, e1, e2]

theorem calculate_effective_stress_err (s : CPTState)
    (e : String × CPTState)
    (h : calculate_effective_stress s = .error e) : e.2 = s := by
  rw [calculate_effective_stress.eq_def] at h
  cases huw : s.unit_weight with
  | none =>
    simp only [huw] at h
    exact congrArg Prod.snd (Except.error.inj h).symm
  | some uw =>
    simp only [huw] at h
    split at h
    · exact congrArg Prod.snd (Except.error.inj h).symm
    · cases hts : s.c_total_stress with
      | none =>
        simp only [hts] at h
        exact congrArg Prod.snd (Except.error.inj h).symm
      | some ts =>
        simp only [hts] at h
        cases hel : s.elevated_gwl <;> cases hg : s.gwl <;>
          simp only [hel, hg] at h <;>
          first
            | exact congrArg Prod.snd (Except.error.inj h).symm
            | exact absurd h (by simp)

theorem calculate_stress_no_error (cf : ClassifyFn) (s : CPTState)
    (x0 y0 : ℚ) (uwr : List (ℚ × ℚ)) (d0 : ℚ) (ds : List ℚ)
    (huw : s.unit_weight = some ((x0, y0) :: uwr))
    (hds : cpt_depth_source s ((x0, y0) :: uwr) = d0 :: ds) :
    isError (calculate_stress cf s) = false := by
  have hrun : calculate_total_stress s
      = .ok { s with c_total_stress := some (List.zip (d0 :: ds)
          (total_stress_values (d0 :: ds) ((x0, y0) :: uwr))) } := by
    simp [calculate_total_stress, huw, hds]
  rw [calculate_stress.eq_def, hrun]
  cases hg : s.gwl <;> cases hel : s.elevated_gwl <;>
    simp only [hg, hel, calculate_effective_stress, huw,
      Option.isSome_some, Option.isSome_none, Bool.or_self, Bool.or_true,
      Bool.true_or, Bool.or_false, Bool.false_or, if_true, if_false,
      reduceCtorEq, false_and, and_false, and_self, and_true, true_and,
      ite_true, ite_false, Bool.false_eq_true] <;>
    (cases hsm : s.soil_classification_method <;> simp only [hsm] <;>
      first
        | rfl
        | (split <;> rfl))

theorem foldl_clear_base (deps : List Dep) : ∀ s : CPTState,
    (deps.foldl clear_dep s).area_ratio = s.area_ratio ∧
    (deps.foldl clear_dep s).gwl = s.gwl ∧
    (deps.foldl clear_dep s).elevated_gwl = s.elevated_gwl ∧
    (deps.foldl clear_dep s).unit_weight = s.unit_weight ∧
    (deps.foldl clear_dep s).holedepth = s.holedepth ∧
    (deps.foldl clear_dep s).soil_classification_method
      = s.soil_classification_method := by
  induction deps with
  | nil => intro s; simp
  | cons d t ih =>
    intro s
    rw [List.foldl_cons]
    have h := ih (clear_dep s d)
    cases d <;> simpa [clear_dep] using h

theorem foldl_clear_chan (deps : List Dep) : ∀ s : CPTState,
    (Dep.qc ∉ deps → (deps.foldl clear_dep s).qc = s.qc) ∧
    (Dep.fs ∉ deps → (deps.foldl clear_dep s).fs = s.fs) ∧
    (Dep.u2 ∉ deps → (deps.foldl clear_dep s).u2 = s.u2) ∧
    (Dep.total_stress ∉ deps →
      (deps.foldl clear_dep s).c_total_stress = s.c_total_stress) := by
  induction deps with
  | nil => intro s; simp
  | cons d t ih =>
    intro s
    rw [List.foldl_cons]
    have h := ih (clear_dep s d)
    refine ⟨fun hm => ?_, fun hm => ?_, fun hm => ?_, fun hm => ?_⟩
    · rw [h.1 fun hx => hm (List.mem_cons_of_mem _ hx)]
      cases d <;>
        first
          | exact absurd (List.mem_cons_self _ _) hm
          | simp [clear_dep]
    · rw [h.2.1 fun hx => hm (List.mem_cons_of_mem _ hx)]
      cases d <;>
        first
          | exact absurd (List.mem_cons_self _ _) hm
          | simp [clear_dep]
    · rw [h.2.2.1 fun hx => hm (List.mem_cons_of_mem _ hx)]
      cases d <;>
        first
          | exact absurd (List.mem_cons_self _ _) hm
          | simp [clear_dep]
    · rw [h.2.2.2 fun hx => hm (List.mem_cons_of_mem _ hx)]
      cases d <;>
        first
          | exact absurd (List.mem_cons_self _ _) hm
          | simp [clear_dep]

theorem listener_base_proj (s : CPTState) (deps : List Dep) (b : Bool) :
    (listener_dependency s deps b).area_ratio = s.area_ratio ∧
    (listener_dependency s deps b).gwl = s.gwl ∧
    (listener_dependency s deps b).elevated_gwl = s.elevated_gwl ∧
    (listener_dependency s deps b).unit_weight = s.unit_weight ∧
    (listener_dependency s deps b).holedepth = s.holedepth ∧
    (listener_dependency s deps b).soil_classification_method
      = s.soil_classification_method := by
  have h := foldl_clear_base deps s
  simp only [listener_dependency]
  split
  · simpa [del_classification] using h
  · exact h

theorem listener_chan_proj (s : CPTState) (deps : List Dep) (b : Bool) :
    (Dep.qc ∉ deps → (listener_dependency s deps b).qc = s.qc) ∧
    (Dep.fs ∉ deps → (listener_dependency s deps b).fs = s.fs) ∧
    (Dep.u2 ∉ deps → (listener_dependency s deps b).u2 = s.u2) ∧
    (Dep.total_stress ∉ deps →
      (listener_dependency s deps b).c_total_stress
        = s.c_total_stress) := by
  have h := foldl_clear_chan deps s
  simp only [listener_dependency]
  split
  · exact ⟨fun hm => by simpa [del_classification] using h.1 hm,
      fun hm => by simpa [del_classification] using h.2.1 hm,
      fun hm => by simpa [del_classification] using h.2.2.1 hm,
      fun hm => by simpa [del_classification] using h.2.2.2 hm⟩
  · exact h

theorem calculate_stress_ok_of_qc (cf : ClassifyFn) (t : CPTState)
    (p : ℚ × ℚ) (prest : Series) (x0 y0 : ℚ) (uwr : List (ℚ × ℚ))
    (hqc : t.qc = some (p :: prest))
    (huw : t.unit_weight = some ((x0, y0) :: uwr)) :
    isError (calculate_stress cf t) = false :=
  calculate_stress_no_error cf t x0 y0 uwr p.1 (List.map Prod.fst prest) huw
    (by simp [cpt_depth_source, hqc, depth_index])

theorem calculate_stress_ok_of_fs (cf : ClassifyFn) (t : CPTState)
    (p : ℚ × ℚ) (prest : Series) (x0 y0 : ℚ) (uwr : List (ℚ × ℚ))
    (hfs : t.fs = some (p :: prest))
    (hqc : t.qc = none ∨ ∃ q qrest, t.qc = some (q :: qrest))
    (huw : t.unit_weight = some ((x0, y0) :: uwr)) :
    isError (calculate_stress cf t) = false := by
  rcases hqc with hqc | ⟨q, qrest, hqc⟩
  · exact calculate_stress_no_error cf t x0 y0 uwr p.1
      (List.map Prod.fst prest) huw
      (by simp [cpt_depth_source, hqc, hfs, depth_index])
  · exact calculate_stress_no_error cf t x0 y0 uwr q.1
      (List.map Prod.fst qrest) huw
      (by simp [cpt_depth_source, hqc, depth_index])

theorem calculate_stress_ok_of_u2 (cf : ClassifyFn) (t : CPTState)
    (p : ℚ × ℚ) (prest : Series) (x0 y0 : ℚ) (uwr : List (ℚ × ℚ))
    (hu2 : t.u2 = some (p :: prest))
    (hqc : t.qc = none ∨ ∃ q qrest, t.qc = some (q :: qrest))
    (hfs : t.fs = none ∨ ∃ f frest, t.fs = some (f :: frest))
    (huw : t.unit_weight = some ((x0, y0) :: uwr)) :
    isError (calculate_stress cf t) = false := by
  rcases hqc with hqc | ⟨q, qrest, hqc⟩
  · rcases hfs with hfs | ⟨f, frest, hfs⟩
    · exact calculate_stress_no_error cf t x0 y0 uwr p.1
        (List.map Prod.fst prest) huw
        (by simp [cpt_depth_source, hqc, hfs, hu2, depth_index])
    · exact calculate_stress_no_error cf t x0 y0 uwr f.1
        (List.map Prod.fst frest) huw
        (by simp [cpt_depth_source, hqc, hfs, depth_index])
  · exact calculate_stress_no_error cf t x0 y0 uwr q.1
      (List.map Prod.fst qrest) huw
      (by simp [cpt_depth_source, hqc, depth_index])

theorem aligned_some_shape (p : ℚ × ℚ) (prest : Series) (q : Series)
    (h : channel_misaligned (p :: prest) (some q) = false) :
    ∃ qh qrest, q = qh :: qrest := by
  have heq : depth_index (p :: prest) = depth_index q := by
    simpa [channel_misaligned] using h
  cases q with
  | nil => simp [depth_index] at heq
  | cons qh qrest => exact ⟨qh, qrest, rfl⟩

theorem set_qc_err_of_misaligned (cf : ClassifyFn) (p : ℚ × ℚ)
    (prest : Series) (s : CPTState)
    (h : (channel_misaligned (p :: prest) s.fs
          || channel_misaligned (p :: prest) s.u2) = true) :
    set_qc cf (p :: prest) s
      = .error (mismatch_error_msg
          ((if channel_misaligned (p :: prest) s.fs = true then ["fs"]
            else [])
           ++ (if channel_misaligned (p :: prest) s.u2 = true then ["u2"]
               else [])), s) := by
  obtain ⟨hv1, hv2⟩ := validate_two (p :: prest) "fs" "u2" s.fs s.u2
  simp only [set_qc]
  rw [hv1, hv2]
  cases hm1 : channel_misaligned (p :: prest) s.fs <;>
    cases hm2 : channel_misaligned (p :: prest) s.u2 <;>
      simp_all

theorem set_qc_ok_of_aligned (cf : ClassifyFn) (p : ℚ × ℚ) (prest : Series)
    (s : CPTState)
    (hwf : s.c_total_stress.isSome = true →
      ∃ x0 y0 uwr, s.unit_weight = some ((x0, y0) :: uwr))
    (h1 : channel_misaligned (p :: prest) s.fs = false)
    (h2 : channel_misaligned (p :: prest) s.u2 = false) :
    isError (set_qc cf (p :: prest) s) = false := by
  obtain ⟨hv1, hv2⟩ := validate_two (p :: prest) "fs" "u2" s.fs s.u2
  simp only [set_qc]
  rw [hv1]
  simp only [h1, h2, Bool.not_false, Bool.and_self, Bool.not_true,
    Bool.false_eq_true, if_false]
  generalize (if s.holedepth < list_max (List.map Prod.snd (p :: prest))
      then list_max (List.map Prod.snd (p :: prest))
      else s.holedepth) = hd
  split
  next hcond =>
    simp only [Bool.and_eq_true] at hcond
    have h3 := hcond.1
    rw [(delete_qt_proj _).2.2.2.2.2.2.1] at h3
    have hts : s.c_total_stress.isSome = true := by simpa using h3
    obtain ⟨x0, y0, uwr, huw⟩ := hwf hts
    exact calculate_stress_ok_of_qc cf _ p prest x0 y0 uwr
      (by rw [(delete_qt_proj _).2.1])
      (by rw [(delete_qt_proj _).1]; exact huw)
  next => simp [isError]

theorem set_fs_err_of_misaligned (cf : ClassifyFn) (p : ℚ × ℚ)
    (prest : Series) (s : CPTState)
    (h : (channel_misaligned (p :: prest) s.qc
          || channel_misaligned (p :: prest) s.u2) = true) :
    set_fs cf (p :: prest) s
      = .error (mismatch_error_msg
          ((if channel_misaligned (p :: prest) s.qc = true then ["qc"]
            else [])
           ++ (if channel_misaligned (p :: prest) s.u2 = true then ["u2"]
               else [])), s) := by
  obtain ⟨hv1, hv2⟩ := validate_two (p :: prest) "qc" "u2" s.qc s.u2
  simp only [set_fs]
  rw [hv1, hv2]
  cases hm1 : channel_misaligned (p :: prest) s.qc <;>
    cases hm2 : channel_misaligned (p :: prest) s.u2 <;>
      simp_all

theorem set_fs_ok_of_aligned (cf : ClassifyFn) (p : ℚ × ℚ) (prest : Series)
    (s : CPTState)
    (hwf : s.c_total_stress.isSome = true →
      ∃ x0 y0 uwr, s.unit_weight = some ((x0, y0) :: uwr))
    (h1 : channel_misaligned (p :: prest) s.qc = false)
    (h2 : channel_misaligned (p :: prest) s.u2 = false) :
    isError (set_fs cf (p :: prest) s) = false := by
  obtain ⟨hv1, hv2⟩ := validate_two (p :: prest) "qc" "u2" s.qc s.u2
  have hqcs : s.qc = none ∨ ∃ qh qrest, s.qc = some (qh :: qrest) := by
    cases hq : s.qc with
    | none => exact Or.inl rfl
    | some q =>
      obtain ⟨qh, qrest, rfl⟩ :=
        aligned_some_shape p prest q (by rwa [hq] at h1)
      exact Or.inr ⟨qh, qrest, rfl⟩
  simp only [set_fs]
  rw [hv1]
  simp only [h1, h2, Bool.not_false, Bool.and_self, Bool.not_true,
    Bool.false_eq_true, if_false]
  generalize (if s.holedepth < list_max (List.map Prod.snd (p :: prest))
      then list_max (List.map Prod.snd (p :: prest))
      else s.holedepth) = hd
  split
  next hcond =>
    simp only [Bool.and_eq_true] at hcond
    have h3 := hcond.1
    rw [(listener_chan_proj _ [Dep.Rf, Dep.Fr, Dep.Ic] true).2.2.2
      (by decide)] at h3
    have hts : s.c_total_stress.isSome = true := by simpa using h3
    obtain ⟨x0, y0, uwr, huw⟩ := hwf hts
    refine calculate_stress_ok_of_fs cf _ p prest x0 y0 uwr ?_ ?_ ?_
    · rw [(listener_chan_proj _ [Dep.Rf, Dep.Fr, Dep.Ic] true).2.1
        (by decide)]
    · rcases hqcs with hq | ⟨qh, qrest, hq⟩
      · exact Or.inl (by
          rw [(listener_chan_proj _ [Dep.Rf, Dep.Fr, Dep.Ic] true).1
            (by decide)]
          exact hq)
      · exact Or.inr ⟨qh, qrest, by
          rw [(listener_chan_proj _ [Dep.Rf, Dep.Fr, Dep.Ic] true).1
            (by decide)]
          exact hq⟩
    · rw [(listener_base_proj _ [Dep.Rf, Dep.Fr, Dep.Ic] true).2.2.2.1]
      exact huw
  next => simp [isError]

theorem set_u2_err_of_misaligned (cf : ClassifyFn) (p : ℚ × ℚ)
    (prest : Series) (s : CPTState)
    (h : (channel_misaligned (p :: prest) s.qc
          || channel_misaligned (p :: prest) s.fs) = true) :
    set_u2 cf (p :: prest) s
      = .error (mismatch_error_msg
          ((if channel_misaligned (p :: prest) s.qc = true then ["qc"]
            else [])
           ++ (if channel_misaligned (p :: prest) s.fs = true then ["fs"]
               else [])), s) := by
  obtain ⟨hv1, hv2⟩ := validate_two (p :: prest) "qc" "fs" s.qc s.fs
  simp only [set_u2]
  rw [hv1, hv2]
  cases hm1 : channel_misaligned (p :: prest) s.qc <;>
    cases hm2 : channel_misaligned (p :: prest) s.fs <;>
      simp_all

theorem set_u2_ok_of_aligned (cf : ClassifyFn) (p : ℚ × ℚ) (prest : Series)
    (s : CPTState)
    (hwf : s.c_total_stress.isSome = true →
      ∃ x0 y0 uwr, s.unit_weight = some ((x0, y0) :: uwr))
    (h1 : channel_misaligned (p :: prest) s.qc = false)
    (h2 : channel_misaligned (p :: prest) s.fs = false) :
    isError (set_u2 cf (p :: prest) s) = false := by
  obtain ⟨hv1, hv2⟩ := validate_two (p :: prest) "qc" "fs" s.qc s.fs
  have hqcs : s.qc = none ∨ ∃ qh qrest, s.qc = some (qh :: qrest) := by
    cases hq : s.qc with
    | none => exact Or.inl rfl
    | some q =>
      obtain ⟨qh, qrest, rfl⟩ :=
        aligned_some_shape p prest q (by rwa [hq] at h1)
      exact Or.inr ⟨qh, qrest, rfl⟩
  have hfss : s.fs = none ∨ ∃ fh frest, s.fs = some (fh :: frest) := by
    cases hf : s.fs with
    | none => exact Or.inl rfl
    | some f =>
      obtain ⟨fh, frest, rfl⟩ :=
        aligned_some_shape p prest f (by rwa [hf] at h2)
      exact Or.inr ⟨fh, frest, rfl⟩
  simp only [set_u2]
  rw [hv1]
  simp only [h1, h2, Bool.not_false, Bool.and_self, Bool.not_true,
    Bool.false_eq_true, if_false]
  generalize (if s.holedepth < list_max (List.map Prod.snd (p :: prest))
      then list_max (List.map Prod.snd (p :: prest))
      else s.holedepth) = hd
  split
  next hcond =>
    simp only [Bool.and_eq_true] at hcond
    have h3 := hcond.1
    rw [(delete_qt_proj _).2.2.2.2.2.2.1] at h3
    have hts : s.c_total_stress.isSome = true := by simpa using h3
    obtain ⟨x0, y0, uwr, huw⟩ := hwf hts
    refine calculate_stress_ok_of_u2 cf _ p prest x0 y0 uwr ?_ ?_ ?_ ?_
    · rw [(delete_qt_proj _).2.2.2.1]
    · rcases hqcs with hq | ⟨qh, qrest, hq⟩
      · exact Or.inl (by rw [(delete_qt_proj _).2.1]; exact hq)
      · exact Or.inr ⟨qh, qrest, by rw [(delete_qt_proj _).2.1]; exact hq⟩
    · rcases hfss with hf | ⟨fh, frest, hf⟩
      · exact Or.inl (by rw [(delete_qt_proj _).2.2.1]; exact hf)
      · exact Or.inr ⟨fh, frest, by rw [(delete_qt_proj _).2.2.1]; exact hf⟩
    · rw [(delete_qt_proj _).1]; exact huw
  next => simp [isError]

theorem set_raw_data_err (cf : ClassifyFn) (rows : List (List ℚ))
    (s : CPTState) (e : String × CPTState)
    (h : set_raw_data cf rows s = .error e) : e.2 = s := by
  have hts : ∀ t : CPTState,
      (listener_dependency t
        [Dep.qt, Dep.Rf, Dep.Qt, Dep.Fr, Dep.Bq, Dep.Ic, Dep.total_stress,
         Dep.effective_stress, Dep.static_u0, Dep.elevated_u0]
        true).c_total_stress = none := by
    intro t
    cases hm : t.soil_classification_method <;>
      simp [listener_dependency, clear_dep, del_classification, hm]
  cases rows with
  | nil =>
    simp only [set_raw_data] at h
    exact (congrArg Prod.snd (Except.error.inj h)).symm
  | cons r0 rest =>
    simp only [set_raw_data] at h
    split at h
    · exact (congrArg Prod.snd (Except.error.inj h)).symm
    · split at h
      · exact (congrArg Prod.snd (Except.error.inj h)).symm
      · rw [hts] at h
        simp at h

theorem set_gwl_err (v : ℚ) (s : CPTState) (e : String × CPTState)
    (h : set_gwl v s = .error e) : e.2 = { s with gwl := some v } := by
  simp only [set_gwl] at h
  cases hc : calculate_effective_stress { s with gwl := some v } with
  | error e2 =>
    rw [hc] at h
    obtain rfl := Except.error.inj h
    exact calculate_effective_stress_err _ e2 hc
  | ok s2 =>
    rw [hc] at h
    exact absurd h (by simp)

theorem set_elevated_gwl_err (v : ℚ) (s : CPTState) (e : String × CPTState)
    (h : set_elevated_gwl v s = .error e) :
    e.2 = { s with elevated_gwl := some v } := by
  simp only [set_elevated_gwl] at h
  cases hc : calculate_effective_stress { s with elevated_gwl := some v } with
  | error e2 =>
    rw [hc] at h
    obtain rfl := Except.error.inj h
    exact calculate_effective_stress_err _ e2 hc
  | ok s2 =>
    rw [hc] at h
    exact absurd h (by simp)

theorem del_qc_err (s : CPTState) (e : String × CPTState)
    (h : del_qc s = .error e) :
    s.qc = none ∧ e.1 = "AttributeError: _qc" ∧ e.2 = delete_qt s := by
  simp only [del_qc] at h
  cases hq : (delete_qt s).qc with
  | none =>
    rw [hq] at h
    obtain rfl := Except.error.inj h
    exact ⟨by rw [← (delete_qt_proj s).2.1]; exact hq, rfl, rfl⟩
  | some q =>
    rw [hq] at h
    exact absurd h (by simp)

theorem del_fs_err (s : CPTState) (e : String × CPTState)
    (h : del_fs s = .error e) :
    s.fs = none ∧ e.1 = "AttributeError: _fs" ∧
    e.2 = listener_dependency s [.Rf, .Fr, .Ic] := by
  simp only [del_fs] at h
  cases hq : (listener_dependency s [.Rf, .Fr, .Ic] true).fs with
  | none =>
    rw [hq] at h
    obtain rfl := Except.error.inj h
    refine ⟨?_, rfl, rfl⟩
    rw [← (listener_chan_proj s [Dep.Rf, Dep.Fr, Dep.Ic] true).2.1
      (by decide)]
    exact hq
  | some q =>
    rw [hq] at h
    exact absurd h (by simp)

theorem del_u2_err (s : CPTState) (e : String × CPTState)
    (h : del_u2 s = .error e) :
    s.u2 = none ∧ e.1 = "AttributeError: _u2" ∧ e.2 = delete_qt s := by
  simp only [del_u2] at h
  cases hq : (delete_qt s).u2 with
  | none =>
    rw [hq] at h
    obtain rfl := Except.error.inj h
    exact ⟨by rw [← (delete_qt_proj s).2.2.2.1]; exact hq, rfl, rfl⟩
  | some q =>
    rw [hq] at h
    exact absurd h (by simp)

theorem delete_qt_area_ratio (s : CPTState) :
    (delete_qt s).area_ratio = s.area_ratio := by
  simp only [delete_qt]
  exact (listener_base_proj s [Dep.Rf, Dep.Qt, Dep.Fr, Dep.Bq, Dep.Ic]
    true).1

theorem del_area_ratio_err (s : CPTState) (e : String × CPTState)
    (h : del_area_ratio s = .error e) :
    s.area_ratio = none ∧ e.1 = "AttributeError: _area_ratio" ∧
    e.2 = delete_qt s := by
  simp only [del_area_ratio] at h
  cases hq : (delete_qt s).area_ratio with
  | none =>
    rw [hq] at h
    obtain rfl := Except.error.inj h
    exact ⟨by rw [← delete_qt_area_ratio s]; exact hq, rfl, rfl⟩
  | some q =>
    rw [hq] at h
    exact absurd h (by simp)

theorem del_gwl_err (s : CPTState) (e : String × CPTState)
    (h : del_gwl s = .error e) :
    s.gwl = none ∧ e.1 = "AttributeError: _gwl" ∧
    e.2 = listener_dependency s
      [.static_u0, .effective_stress, .Qt, .Bq, .Ic] := by
  simp only [del_gwl] at h
  cases hq : (listener_dependency s
      [.static_u0, .effective_stress, .Qt, .Bq, .Ic] true).gwl with
  | none =>
    rw [hq] at h
    obtain rfl := Except.error.inj h
    refine ⟨?_, rfl, rfl⟩
    rw [← (listener_base_proj s
      [Dep.static_u0, Dep.effective_stress, Dep.Qt, Dep.Bq, Dep.Ic]
      true).2.1]
    exact hq
  | some q =>
    rw [hq] at h
    exact absurd h (by simp)

theorem del_elevated_gwl_err (s : CPTState) (e : String × CPTState)
    (h : del_elevated_gwl s = .error e) :
    s.elevated_gwl = none ∧ e.1 = "AttributeError: _elevated_gwl" ∧
    e.2 = listener_dependency s
      [.elevated_u0, .effective_stress, .Qt, .Bq, .Ic] := by
  simp only [del_elevated_gwl] at h
  cases hq : (listener_dependency s
      [.elevated_u0, .effective_stress, .Qt, .Bq, .Ic] true).elevated_gwl
    with
  | none =>
    rw [hq] at h
    obtain rfl := Except.error.inj h
    refine ⟨?_, rfl, rfl⟩
    rw [← (listener_base_proj s
      [Dep.elevated_u0, Dep.effective_stress, Dep.Qt, Dep.Bq, Dep.Ic]
      true).2.2.1]
    exact hq
  | some q =>
    rw [hq] at h
    exact absurd h (by simp)

theorem del_unit_weight_err (s : CPTState) (e : String × CPTState)
    (h : del_unit_weight s = .error e) :
    s.unit_weight = none ∧ e.1 = "AttributeError: _unit_weight" ∧
    e.2 = listener_dependency s
      [.total_stress, .effective_stress, .Qt, .Fr, .Bq, .Ic] := by
  simp only [del_unit_weight] at h
  cases hq : (listener_dependency s
      [.total_stress, .effective_stress, .Qt, .Fr, .Bq, .Ic]
      true).unit_weight with
  | none =>
    rw [hq] at h
    obtain rfl := Except.error.inj h
    refine ⟨?_, rfl, rfl⟩
    rw [← (listener_base_proj s
      [Dep.total_stress, Dep.effective_stress, Dep.Qt, Dep.Fr, Dep.Bq,
       Dep.Ic] true).2.2.2.1]
    exact hq
  | some q =>
    rw [hq] at h
    exact absurd h (by simp)

/-! ## Claim C8 -/

/-- C8: for every probe with a computed total stress on which
`_calculate_effective_stress` succeeds (so a unit-weight profile and at
least one groundwater level are defined), each stored pore-pressure
series `u0` carries the total-stress depth index and equals 0 strictly
above the groundwater level and `(z − gwl) × 10` at or below it (with
`GLOBAL_unit_weight_of_water` fixed at 10), and the stored effective
stress is total stress minus the elevated `u0` whenever an elevated
groundwater level is defined, otherwise total stress minus the static
`u0`. -/
theorem C8_u0_effective_stress (s s1 : CPTState) (ts : Series)
    (hts : s.c_total_stress = some ts)
    (hok : calculate_effective_stress s = .ok s1) :
    GLOBAL_unit_weight_of_water = 10 ∧
    (∀ g, s.gwl = some g → ∃ u0v, s1.c_static_u0 = some u0v ∧
      depth_index u0v = depth_index ts ∧
      (∀ p ∈ u0v, p.2 = if p.1 < g then 0 else (p.1 - g) * 10) ∧
      (s.elevated_gwl = none →
        s1.c_effective_stress = some (series_sub ts u0v))) ∧
    (∀ eg, s.elevated_gwl = some eg → ∃ e0v, s1.c_elevated_u0 = some e0v ∧
      depth_index e0v = depth_index ts ∧
      (∀ p ∈ e0v, p.2 = if p.1 < eg then 0 else (p.1 - eg) * 10) ∧
      s1.c_effective_stress = some (series_sub ts e0v)) := by
  have hidx : ∀ g : ℚ, depth_index (u0_series g (depth_index ts))
      = depth_index ts := by
    intro g
    simp [u0_series, depth_index, List.map_map, Function.comp]
  have hval : ∀ g : ℚ, ∀ p ∈ u0_series g (depth_index ts),
      p.2 = if p.1 < g then 0 else (p.1 - g) * 10 := by
    intro g p hp
    simp only [u0_series, List.mem_map] at hp
    obtain ⟨z, _, rfl⟩ := hp
    simp [GLOBAL_unit_weight_of_water]
  cases huw : s.unit_weight with
  | none =>
    rw [calculate_effective_stress.eq_def] at hok
    simp [huw] at hok
  | some uw =>
    rw [calculate_effective_stress.eq_def] at hok
    simp only [huw] at hok
    cases hel : s.elevated_gwl with
    | some eg =>
      cases hg : s.gwl with
      | some g =>
        rw [hg, hel] at hok
        simp only [hts, reduceCtorEq, false_and, if_false] at hok
        have hs1 := (Except.ok.inj hok).symm
        subst hs1
        refine ⟨rfl, ?_, ?_⟩
        · intro g2 hg2
          obtain rfl := Option.some.inj hg2
          exact ⟨_, by simp, hidx g, hval g, by simp⟩
        · intro eg2 heg2
          obtain rfl := Option.some.inj heg2
          exact ⟨_, by simp, hidx eg, hval eg, by simp⟩
      | none =>
        rw [hg, hel] at hok
        simp only [hts, reduceCtorEq, and_true, false_and, if_false] at hok
        have hs1 := (Except.ok.inj hok).symm
        subst hs1
        refine ⟨rfl, ?_, ?_⟩
        · intro g2 hg2
          exact absurd hg2 (by simp)
        · intro eg2 heg2
          obtain rfl := Option.some.inj heg2
          exact ⟨_, by simp, hidx eg, hval eg, by simp⟩
    | none =>
      cases hg : s.gwl with
      | some g =>
        rw [hg, hel] at hok
        simp only [hts, reduceCtorEq, false_and, and_false, if_false] at hok
        have hs1 := (Except.ok.inj hok).symm
        subst hs1
        refine ⟨rfl, ?_, ?_⟩
        · intro g2 hg2
          obtain rfl := Option.some.inj hg2
          exact ⟨_, by simp, hidx g, hval g, fun _ => by simp⟩
        · intro eg2 heg2
          exact absurd heg2 (by simp)
      | none =>
        rw [hg, hel] at hok
        simp [hts] at hok

/-- Witness for `C8_u0_effective_stress` at the concrete probe
`c8State`. -/
theorem C8_witness :
    GLOBAL_unit_weight_of_water = 10 ∧
    (∀ g, c8State.gwl = some g → ∃ u0v,
      c8StateResult.c_static_u0 = some u0v ∧
      depth_index u0v = depth_index [(1, 16), (3, 48)] ∧
      (∀ p ∈ u0v, p.2 = if p.1 < g then 0 else (p.1 - g) * 10) ∧
      (c8State.elevated_gwl = none →
        c8StateResult.c_effective_stress
          = some (series_sub [(1, 16), (3, 48)] u0v))) ∧
    (∀ eg, c8State.elevated_gwl = some eg → ∃ e0v,
      c8StateResult.c_elevated_u0 = some e0v ∧
      depth_index e0v = depth_index [(1, 16), (3, 48)] ∧
      (∀ p ∈ e0v, p.2 = if p.1 < eg then 0 else (p.1 - eg) * 10) ∧
      c8StateResult.c_effective_stress
        = some (series_sub [(1, 16), (3, 48)] e0v)) := by
  refine C8_u0_effective_stress c8State c8StateResult [(1, 16), (3, 48)]
    (by norm_num [c8State, initCPT]) ?_
  rw [calculate_effective_stress.eq_def]
  norm_num [c8State, c8StateResult, initCPT,
    u0_series, series_sub, depth_index, GLOBAL_unit_weight_of_water]
  intro h
  exact absurd h (by simp)

/-! ## Claim C1 -/

/-- C1, counterexample.  The claim says a `unit_weight` mutation evicts
the cached total stress (and the other quantities of its §4.3 row), so a
subsequent read would be a cache miss.  In the source the setter evicts
and then immediately recomputes: on the probe `uwCexState` (cached total
stress [(1, 16)]) assigning the scalar unit weight 20 succeeds and leaves
a REPOPULATED total-stress cache [(1, 20)], not an evicted one. -/
theorem C1_counterexample :
    ∃ s1, set_unit_weight cfNone (Sum.inl 20) uwCexState = .ok s1 ∧
      s1.c_total_stress = some [(1, 20)] ∧
      s1.c_total_stress ≠ none := by
  refine ⟨{ initCPT with
              qc := some [(1, 5)],
              unit_weight := some [(0, 20), (9999, 20)], holedepth := 1,
              c_total_stress := some [(1, 20)],
              soil_classification_method := some "Eslami Fellenius" },
          ?_, ?_, ?_⟩
  · norm_num [set_unit_weight, uwCexState, initCPT, listener_dependency,
      clear_dep, del_classification, calculate_stress,
      calculate_total_stress, cpt_depth_source, depth_index,
      total_stress_values, nudge_unit_weight, nudge_aux, np_interp,
      cumsum, cumsum_from, cfNone]
  · norm_num
  · simp

/-- C1 (amended): the per-mutation invalidation table actually implemented.
Each conjunct lists, for one mutation, the exact post-state of the ten
cache slots (in the order qt, Rf, Qt, Fr, Bq, Ic, total_stress,
effective_stress, static_u0, elevated_u0), the eviction of the cached
classification result under a remembered method name (the name itself
kept), and the untouched fields.  Deviations from the claim: the
`unit_weight` setter and the channel setters with a new depth index
recompute the stress caches right after evicting (so the listed slots are
not left evicted), and the `gwl`/`elevated_gwl` setters first recompute
the pore-pressure and effective-stress caches and then evict a subset of
them again, leaving e.g. a fresh `elevated_u0` behind a `gwl` set. -/
theorem C1_invalidation_amended :
    (∀ cf rows s s1, set_raw_data cf rows s = .ok s1 →
      caches s1 = List.replicate 10 none ∧
      s1.soil_classification_method = s.soil_classification_method ∧
      (s.soil_classification_method.isSome →
        s1.c_soil_classification = none ∧ s1.c_graph_data = none) ∧
      s1.area_ratio = s.area_ratio ∧ s1.gwl = s.gwl ∧
      s1.elevated_gwl = s.elevated_gwl ∧
      s1.unit_weight = s.unit_weight) ∧
    (∀ s, caches (del_raw_data s) = List.replicate 10 none ∧
      (del_raw_data s).qc = none ∧ (del_raw_data s).fs = none ∧
      (del_raw_data s).u2 = none ∧
      (del_raw_data s).soil_classification_method
        = s.soil_classification_method ∧
      (s.soil_classification_method.isSome →
        (del_raw_data s).c_soil_classification = none ∧
        (del_raw_data s).c_graph_data = none) ∧
      (del_raw_data s).area_ratio = s.area_ratio ∧
      (del_raw_data s).gwl = s.gwl ∧
      (del_raw_data s).elevated_gwl = s.elevated_gwl ∧
      (del_raw_data s).unit_weight = s.unit_weight) ∧
    (∀ cf rows s s1,
      (validate_depth_index (depth_index rows) [("qc", s.qc)]).1 = true →
      set_qc cf rows s = .ok s1 →
      caches s1 = [none, none, none, none, none, none,
        s.c_total_stress, s.c_effective_stress,
        s.c_static_u0, s.c_elevated_u0] ∧
      s1.qc = some rows ∧ s1.fs = s.fs ∧ s1.u2 = s.u2 ∧
      s1.soil_classification_method = s.soil_classification_method ∧
      (s.soil_classification_method.isSome →
        s1.c_soil_classification = none ∧ s1.c_graph_data = none)) ∧
    (∀ cf rows s s1,
      (validate_depth_index (depth_index rows) [("fs", s.fs)]).1 = true →
      set_fs cf rows s = .ok s1 →
      caches s1 = [s.c_qt, none, s.c_Qt, none, s.c_Bq, none,
        s.c_total_stress, s.c_effective_stress,
        s.c_static_u0, s.c_elevated_u0] ∧
      s1.fs = some rows ∧ s1.qc = s.qc ∧ s1.u2 = s.u2 ∧
      s1.soil_classification_method = s.soil_classification_method ∧
      (s.soil_classification_method.isSome →
        s1.c_soil_classification = none ∧ s1.c_graph_data = none)) ∧
    (∀ cf rows s s1,
      (validate_depth_index (depth_index rows) [("u2", s.u2)]).1 = true →
      set_u2 cf rows s = .ok s1 →
      caches s1 = [none, none, none, none, none, none,
        s.c_total_stress, s.c_effective_stress,
        s.c_static_u0, s.c_elevated_u0] ∧
      s1.u2 = some rows ∧ s1.qc = s.qc ∧ s1.fs = s.fs ∧
      s1.soil_classification_method = s.soil_classification_method ∧
      (s.soil_classification_method.isSome →
        s1.c_soil_classification = none ∧ s1.c_graph_data = none)) ∧
    (∀ s s1, del_qc s = .ok s1 →
      caches s1 = [none, none, none, none, none, none,
        s.c_total_stress, s.c_effective_stress,
        s.c_static_u0, s.c_elevated_u0] ∧
      s1.qc = none ∧ s1.fs = s.fs ∧ s1.u2 = s.u2 ∧
      s1.soil_classification_method = s.soil_classification_method ∧
      (s.soil_classification_method.isSome →
        s1.c_soil_classification = none ∧ s1.c_graph_data = none)) ∧
    (∀ s s1, del_fs s = .ok s1 →
      caches s1 = [s.c_qt, none, s.c_Qt, none, s.c_Bq, none,
        s.c_total_stress, s.c_effective_stress,
        s.c_static_u0, s.c_elevated_u0] ∧
      s1.fs = none ∧ s1.qc = s.qc ∧ s1.u2 = s.u2 ∧
      s1.soil_classification_method = s.soil_classification_method ∧
      (s.soil_classification_method.isSome →
        s1.c_soil_classification = none ∧ s1.c_graph_data = none)) ∧
    (∀ s s1, del_u2 s = .ok s1 →
      caches s1 = [none, none, none, none, none, none,
        s.c_total_stress, s.c_effective_stress,
        s.c_static_u0, s.c_elevated_u0] ∧
      s1.u2 = none ∧ s1.qc = s.qc ∧ s1.fs = s.fs ∧
      s1.soil_classification_method = s.soil_classification_method ∧
      (s.soil_classification_method.isSome →
        s1.c_soil_classification = none ∧ s1.c_graph_data = none)) ∧
    (∀ v s, caches (set_area_ratio v s)
        = [none, none, none, none, none, none,
           s.c_total_stress, s.c_effective_stress,
           s.c_static_u0, s.c_elevated_u0] ∧
      (set_area_ratio v s).area_ratio = some v ∧
      (set_area_ratio v s).qc = s.qc ∧ (set_area_ratio v s).fs = s.fs ∧
      (set_area_ratio v s).u2 = s.u2 ∧
      (set_area_ratio v s).soil_classification_method
        = s.soil_classification_method ∧
      (s.soil_classification_method.isSome →
        (set_area_ratio v s).c_soil_classification = none ∧
        (set_area_ratio v s).c_graph_data = none)) ∧
    (∀ s s1, del_area_ratio s = .ok s1 →
      caches s1 = [none, none, none, none, none, none,
        s.c_total_stress, s.c_effective_stress,
        s.c_static_u0, s.c_elevated_u0] ∧
      s1.area_ratio = none ∧ s1.qc = s.qc ∧ s1.fs = s.fs ∧ s1.u2 = s.u2 ∧
      s1.soil_classification_method = s.soil_classification_method ∧
      (s.soil_classification_method.isSome →
        s1.c_soil_classification = none ∧ s1.c_graph_data = none)) ∧
    (∀ v s s1 ts, s.c_total_stress = some ts → set_gwl v s = .ok s1 →
      s1.c_static_u0 = none ∧ s1.c_effective_stress = none ∧
      s1.c_Qt = none ∧ s1.c_Bq = none ∧ s1.c_Ic = none ∧
      s1.c_qt = s.c_qt ∧ s1.c_Rf = s.c_Rf ∧ s1.c_Fr = s.c_Fr ∧
      s1.c_total_stress = some ts ∧
      (s.elevated_gwl = none → s1.c_elevated_u0 = s.c_elevated_u0) ∧
      (∀ eg, s.elevated_gwl = some eg →
        s1.c_elevated_u0 = some (u0_series eg (depth_index ts))) ∧
      s1.gwl = some v ∧ s1.qc = s.qc ∧ s1.fs = s.fs ∧ s1.u2 = s.u2 ∧
      s1.soil_classification_method = s.soil_classification_method ∧
      (s.soil_classification_method.isSome →
        s1.c_soil_classification = none ∧ s1.c_graph_data = none)) ∧
    (∀ s s1, del_gwl s = .ok s1 →
      caches s1 = [s.c_qt, s.c_Rf, none, s.c_Fr, none, none,
        s.c_total_stress, none, none, s.c_elevated_u0] ∧
      s1.gwl = none ∧ s1.qc = s.qc ∧ s1.fs = s.fs ∧ s1.u2 = s.u2 ∧
      s1.elevated_gwl = s.elevated_gwl ∧
      s1.soil_classification_method = s.soil_classification_method ∧
      (s.soil_classification_method.isSome →
        s1.c_soil_classification = none ∧ s1.c_graph_data = none)) ∧
    (∀ v s s1 ts, s.c_total_stress = some ts →
      set_elevated_gwl v s = .ok s1 →
      s1.c_elevated_u0 = none ∧ s1.c_effective_stress = none ∧
      s1.c_Qt = none ∧ s1.c_Bq = none ∧ s1.c_Ic = none ∧
      s1.c_qt = s.c_qt ∧ s1.c_Rf = s.c_Rf ∧ s1.c_Fr = s.c_Fr ∧
      s1.c_total_stress = some ts ∧
      (s.gwl = none → s1.c_static_u0 = s.c_static_u0) ∧
      (∀ g, s.gwl = some g →
        s1.c_static_u0 = some (u0_series g (depth_index ts))) ∧
      s1.elevated_gwl = some v ∧ s1.qc = s.qc ∧ s1.fs = s.fs ∧
      s1.u2 = s.u2 ∧ s1.gwl = s.gwl ∧
      s1.soil_classification_method = s.soil_classification_method ∧
      (s.soil_classification_method.isSome →
        s1.c_soil_classification = none ∧ s1.c_graph_data = none)) ∧
    (∀ s s1, del_elevated_gwl s = .ok s1 →
      caches s1 = [s.c_qt, s.c_Rf, none, s.c_Fr, none, none,
        s.c_total_stress, none, s.c_static_u0, none] ∧
      s1.elevated_gwl = none ∧ s1.qc = s.qc ∧ s1.fs = s.fs ∧
      s1.u2 = s.u2 ∧ s1.gwl = s.gwl ∧
      s1.soil_classification_method = s.soil_classification_method ∧
      (s.soil_classification_method.isSome →
        s1.c_soil_classification = none ∧ s1.c_graph_data = none)) ∧
    (∀ cf w s s1, s.qc = none → s.fs = none → s.u2 = none →
      s.gwl = none → s.elevated_gwl = none →
      s.soil_classification_method = none →
      set_unit_weight cf (Sum.inl w) s = .ok s1 →
      s1.c_total_stress
          = some (List.zip ([0, 9999] : List ℚ)
              (total_stress_values [0, 9999] [(0, w), (9999, w)])) ∧
      s1.c_Qt = none ∧ s1.c_Fr = none ∧ s1.c_Bq = none ∧ s1.c_Ic = none ∧
      s1.c_effective_stress = none ∧
      s1.c_qt = s.c_qt ∧ s1.c_Rf = s.c_Rf ∧
      s1.c_static_u0 = s.c_static_u0 ∧
      s1.c_elevated_u0 = s.c_elevated_u0 ∧
      s1.unit_weight = some [(0, w), (9999, w)] ∧
      s1.soil_classification_method = none) ∧
    (∀ s s1, del_unit_weight s = .ok s1 →
      caches s1 = [s.c_qt, s.c_Rf, none, none, none, none,
        none, none, s.c_static_u0, s.c_elevated_u0] ∧
      s1.unit_weight = none ∧ s1.qc = s.qc ∧ s1.fs = s.fs ∧
      s1.u2 = s.u2 ∧
      s1.soil_classification_method = s.soil_classification_method ∧
      (s.soil_classification_method.isSome →
        s1.c_soil_classification = none ∧ s1.c_graph_data = none)) :=
  ⟨fun cf rows s s1 h => set_raw_data_frame cf rows s s1 h,
   fun s => del_raw_data_frame s,
   fun cf rows s s1 hk h => set_qc_keep_frame cf rows s s1 hk h,
   fun cf rows s s1 hk h => set_fs_keep_frame cf rows s s1 hk h,
   fun cf rows s s1 hk h => set_u2_keep_frame cf rows s s1 hk h,
   fun s s1 h => del_qc_frame s s1 h,
   fun s s1 h => del_fs_frame s s1 h,
   fun s s1 h => del_u2_frame s s1 h,
   fun v s => set_area_ratio_frame v s,
   fun s s1 h => del_area_ratio_frame s s1 h,
   fun v s s1 ts hts h => set_gwl_frame v s s1 ts hts h,
   fun s s1 h => del_gwl_frame s s1 h,
   fun v s s1 ts hts h => set_elevated_gwl_frame v s s1 ts hts h,
   fun s s1 h => del_elevated_gwl_frame s s1 h,
   fun cf w s s1 h1 h2 h3 h4 h5 h6 h7 =>
     set_unit_weight_nochannel_frame cf w s s1 h1 h2 h3 h4 h5 h6 h7,
   fun s s1 h => del_unit_weight_frame s s1 h⟩

/-- Witness for `C1_invalidation_amended` on the concrete bulk assignment
`c4Rows1` to a fresh probe: all ten cache slots are evicted and the
unit-weight profile is untouched. -/
theorem C1_witness :
    ∃ s1, set_raw_data cfNone c4Rows1 initCPT = .ok s1 ∧
      caches s1 = List.replicate 10 none ∧
      s1.unit_weight = initCPT.unit_weight := by
  have hrun : set_raw_data cfNone c4Rows1 initCPT = .ok c1SetRawResult := by
    norm_num [set_raw_data, c4Rows1, initCPT, c1SetRawResult, list_max,
      listener_dependency, clear_dep, del_classification, List.getD]
  have h := C1_invalidation_amended.1 cfNone c4Rows1 initCPT
    c1SetRawResult hrun
  exact ⟨c1SetRawResult, hrun, h.1, h.2.2.2.2.2.2⟩

/-! ## Claim C6 -/

/-- C6, counterexample.  Setting the static groundwater level on a fresh
probe (no unit weight) raises the effective-stress prerequisite error,
yet the probe keeps the new level: the post-error state differs from the
pre-mutation state, so the mutation is not atomic. -/
theorem C6_counterexample :
    isError (set_gwl 5 initCPT) = true ∧
    errState (set_gwl 5 initCPT) = some { initCPT with gwl := some 5 } ∧
    ({ initCPT with gwl := some (5 : ℚ) } : CPTState) ≠ initCPT := by
  refine ⟨?_, ?_, ?_⟩
  · simp [set_gwl, calculate_effective_stress, initCPT, isError]
  · simp [set_gwl, calculate_effective_stress, initCPT, errState]
  · intro hcon
    have hg := congrArg CPTState.gwl hcon
    simp [initCPT] at hg

/-- C6 (amended): the error discipline actually implemented.  The bulk
`raw_data` setter and (on probes whose cached total stress is backed by a
non-empty unit-weight profile) the individual channel setters are atomic:
an error carries the unchanged pre-mutation state.  The two groundwater
setters are NOT atomic: an error leaves the new level stored.  The
deleters raise after their cache evictions have already happened: an
error carries the evicted state, with the deleted attribute absent from
the start. -/
theorem C6_atomicity_amended :
    (∀ v s e, set_gwl v s = .error e →
      e.2 = { s with gwl := some v }) ∧
    (∀ v s e, set_elevated_gwl v s = .error e →
      e.2 = { s with elevated_gwl := some v }) ∧
    (∀ cf rows s e, set_raw_data cf rows s = .error e → e.2 = s) ∧
    (∀ cf p prest s e,
      (s.c_total_stress.isSome = true →
        ∃ x0 y0 uwr, s.unit_weight = some ((x0, y0) :: uwr)) →
      set_qc cf (p :: prest) s = .error e → e.2 = s) ∧
    (∀ cf p prest s e,
      (s.c_total_stress.isSome = true →
        ∃ x0 y0 uwr, s.unit_weight = some ((x0, y0) :: uwr)) →
      set_fs cf (p :: prest) s = .error e → e.2 = s) ∧
    (∀ cf p prest s e,
      (s.c_total_stress.isSome = true →
        ∃ x0 y0 uwr, s.unit_weight = some ((x0, y0) :: uwr)) →
      set_u2 cf (p :: prest) s = .error e → e.2 = s) ∧
    (∀ s e, del_qc s = .error e → s.qc = none ∧ e.2 = delete_qt s) ∧
    (∀ s e, del_fs s = .error e → s.fs = none ∧
      e.2 = listener_dependency s [.Rf, .Fr, .Ic]) ∧
    (∀ s e, del_u2 s = .error e → s.u2 = none ∧ e.2 = delete_qt s) ∧
    (∀ s e, del_area_ratio s = .error e → s.area_ratio = none ∧
      e.2 = delete_qt s) ∧
    (∀ s e, del_gwl s = .error e → s.gwl = none ∧
      e.2 = listener_dependency s
        [.static_u0, .effective_stress, .Qt, .Bq, .Ic]) ∧
    (∀ s e, del_elevated_gwl s = .error e → s.elevated_gwl = none ∧
      e.2 = listener_dependency s
        [.elevated_u0, .effective_stress, .Qt, .Bq, .Ic]) ∧
    (∀ s e, del_unit_weight s = .error e → s.unit_weight = none ∧
      e.2 = listener_dependency s
        [.total_stress, .effective_stress, .Qt, .Fr, .Bq, .Ic]) := by
  refine ⟨fun v s e h => set_gwl_err v s e h,
    fun v s e h => set_elevated_gwl_err v s e h,
    fun cf rows s e h => set_raw_data_err cf rows s e h,
    ?_, ?_, ?_,
    fun s e h => ⟨(del_qc_err s e h).1, (del_qc_err s e h).2.2⟩,
    fun s e h => ⟨(del_fs_err s e h).1, (del_fs_err s e h).2.2⟩,
    fun s e h => ⟨(del_u2_err s e h).1, (del_u2_err s e h).2.2⟩,
    fun s e h => ⟨(del_area_ratio_err s e h).1,
      (del_area_ratio_err s e h).2.2⟩,
    fun s e h => ⟨(del_gwl_err s e h).1, (del_gwl_err s e h).2.2⟩,
    fun s e h => ⟨(del_elevated_gwl_err s e h).1,
      (del_elevated_gwl_err s e h).2.2⟩,
    fun s e h => ⟨(del_unit_weight_err s e h).1,
      (del_unit_weight_err s e h).2.2⟩⟩
  · intro cf p prest s e hwf herr
    cases hm1 : channel_misaligned (p :: prest) s.fs <;>
      cases hm2 : channel_misaligned (p :: prest) s.u2
    · have hok := set_qc_ok_of_aligned cf p prest s hwf hm1 hm2
      rw [herr] at hok
      simp [isError] at hok
    all_goals
      (rw [set_qc_err_of_misaligned cf p prest s (by simp [hm1, hm2])]
         at herr
       exact (congrArg Prod.snd (Except.error.inj herr)).symm)
  · intro cf p prest s e hwf herr
    cases hm1 : channel_misaligned (p :: prest) s.qc <;>
      cases hm2 : channel_misaligned (p :: prest) s.u2
    · have hok := set_fs_ok_of_aligned cf p prest s hwf hm1 hm2
      rw [herr] at hok
      simp [isError] at hok
    all_goals
      (rw [set_fs_err_of_misaligned cf p prest s (by simp [hm1, hm2])]
         at herr
       exact (congrArg Prod.snd (Except.error.inj herr)).symm)
  · intro cf p prest s e hwf herr
    cases hm1 : channel_misaligned (p :: prest) s.qc <;>
      cases hm2 : channel_misaligned (p :: prest) s.fs
    · have hok := set_u2_ok_of_aligned cf p prest s hwf hm1 hm2
      rw [herr] at hok
      simp [isError] at hok
    all_goals
      (rw [set_u2_err_of_misaligned cf p prest s (by simp [hm1, hm2])]
         at herr
       exact (congrArg Prod.snd (Except.error.inj herr)).symm)

/-- Witness for `C6_atomicity_amended` on the concrete failing mutation
`set_gwl 5` of a fresh probe. -/
theorem C6_witness :
    errState (set_gwl 5 initCPT) = some { initCPT with gwl := some 5 } := by
  have hrun : set_gwl (5 : ℚ) initCPT
      = .error ("Unit weight is not yet defined. This is needed to calculate the total/effective stress across depth.",
          { initCPT with gwl := some 5 }) := by
    simp [set_gwl, calculate_effective_stress, initCPT]
  rw [hrun]
  exact congrArg some (C6_atomicity_amended.1 5 initCPT _ hrun)

/-! ## Claim C7 -/

/-- C7, counterexample.  The claim says a channel assignment succeeds iff
the new depth index matches the other channels' indices AS A SET.  On
`qcOnlyState` (qc at depths 1, 2) the assignment `fs = [(2, 3), (1, 4)]`
carries exactly the same depth set {1, 2}, yet it fails: the source
compares with the order-sensitive `pandas.Index.equals`. -/
theorem C7_counterexample :
    (∀ x : ℚ, x ∈ depth_index [((2 : ℚ), 3), (1, 4)]
        ↔ x ∈ depth_index [((1 : ℚ), 1.44), (2, 1.5)]) ∧
    qcOnlyState.qc = some [(1, 1.44), (2, 1.5)] ∧
    isError (set_fs cfNone [((2 : ℚ), 3), (1, 4)] qcOnlyState) = true := by
  refine ⟨?_, rfl, ?_⟩
  · intro x
    simp [depth_index, or_comm]
  · rw [set_fs_err_of_misaligned cfNone ((2 : ℚ), 3) [((1 : ℚ), 4)]
      qcOnlyState ?_]
    · rfl
    · norm_num [channel_misaligned, qcOnlyState, initCPT, depth_index]

/-- C7 (amended): on probes whose cached total stress is backed by a
non-empty unit-weight profile, setting qc, fs, or u2 individually
succeeds if and only if the new data's depth index is equal — as an
ORDERED list (`pandas.Index.equals`), not as a set — to the depth index
of every other already-present raw channel; on mismatch it fails with
the error that names every misaligned channel in check order and directs
the caller to the bulk `raw_data` property, and the carried post-error
state is the unchanged pre-mutation probe. -/
theorem C7_validation_amended :
    (∀ cf p prest s,
      (s.c_total_stress.isSome = true →
        ∃ x0 y0 uwr, s.unit_weight = some ((x0, y0) :: uwr)) →
      ((isError (set_qc cf (p :: prest) s) = false ↔
          channel_misaligned (p :: prest) s.fs = false ∧
          channel_misaligned (p :: prest) s.u2 = false) ∧
       (∀ e, set_qc cf (p :: prest) s = .error e →
          e.1 = mismatch_error_msg
            ((if channel_misaligned (p :: prest) s.fs = true then ["fs"]
              else [])
             ++ (if channel_misaligned (p :: prest) s.u2 = true
                 then ["u2"] else [])) ∧
          e.2 = s))) ∧
    (∀ cf p prest s,
      (s.c_total_stress.isSome = true →
        ∃ x0 y0 uwr, s.unit_weight = some ((x0, y0) :: uwr)) →
      ((isError (set_fs cf (p :: prest) s) = false ↔
          channel_misaligned (p :: prest) s.qc = false ∧
          channel_misaligned (p :: prest) s.u2 = false) ∧
       (∀ e, set_fs cf (p :: prest) s = .error e →
          e.1 = mismatch_error_msg
            ((if channel_misaligned (p :: prest) s.qc = true then ["qc"]
              else [])
             ++ (if channel_misaligned (p :: prest) s.u2 = true
                 then ["u2"] else [])) ∧
          e.2 = s))) ∧
    (∀ cf p prest s,
      (s.c_total_stress.isSome = true →
        ∃ x0 y0 uwr, s.unit_weight = some ((x0, y0) :: uwr)) →
      ((isError (set_u2 cf (p :: prest) s) = false ↔
          channel_misaligned (p :: prest) s.qc = false ∧
          channel_misaligned (p :: prest) s.fs = false) ∧
       (∀ e, set_u2 cf (p :: prest) s = .error e →
          e.1 = mismatch_error_msg
            ((if channel_misaligned (p :: prest) s.qc = true then ["qc"]
              else [])
             ++ (if channel_misaligned (p :: prest) s.fs = true
                 then ["fs"] else [])) ∧
          e.2 = s))) := by
  refine ⟨?_, ?_, ?_⟩
  · intro cf p prest s hwf
    constructor
    · constructor
      · intro hok
        by_contra hcon
        have hor : (channel_misaligned (p :: prest) s.fs
            || channel_misaligned (p :: prest) s.u2) = true := by
          cases hm1 : channel_misaligned (p :: prest) s.fs <;>
            cases hm2 : channel_misaligned (p :: prest) s.u2 <;>
              simp_all
        rw [set_qc_err_of_misaligned cf p prest s hor] at hok
        simp [isError] at hok
      · rintro ⟨hm1, hm2⟩
        exact set_qc_ok_of_aligned cf p prest s hwf hm1 hm2
    · intro e herr
      have hor : (channel_misaligned (p :: prest) s.fs
          || channel_misaligned (p :: prest) s.u2) = true := by
        cases hm1 : channel_misaligned (p :: prest) s.fs <;>
          cases hm2 : channel_misaligned (p :: prest) s.u2
        · have hok := set_qc_ok_of_aligned cf p prest s hwf hm1 hm2
          rw [herr] at hok
          simp [isError] at hok
        all_goals simp [hm1, hm2]
      rw [set_qc_err_of_misaligned cf p prest s hor] at herr
      obtain rfl := Except.error.inj herr
      exact ⟨rfl, rfl⟩
  · intro cf p prest s hwf
    constructor
    · constructor
      · intro hok
        by_contra hcon
        have hor : (channel_misaligned (p :: prest) s.qc
            || channel_misaligned (p :: prest) s.u2) = true := by
          cases hm1 : channel_misaligned (p :: prest) s.qc <;>
            cases hm2 : channel_misaligned (p :: prest) s.u2 <;>
              simp_all
        rw [set_fs_err_of_misaligned cf p prest s hor] at hok
        simp [isError] at hok
      · rintro ⟨hm1, hm2⟩
        exact set_fs_ok_of_aligned cf p prest s hwf hm1 hm2
    · intro e herr
      have hor : (channel_misaligned (p :: prest) s.qc
          || channel_misaligned (p :: prest) s.u2) = true := by
        cases hm1 : channel_misaligned (p :: prest) s.qc <;>
          cases hm2 : channel_misaligned (p :: prest) s.u2
        · have hok := set_fs_ok_of_aligned cf p prest s hwf hm1 hm2
          rw [herr] at hok
          simp [isError] at hok
        all_goals simp [hm1, hm2]
      rw [set_fs_err_of_misaligned cf p prest s hor] at herr
      obtain rfl := Except.error.inj herr
      exact ⟨rfl, rfl⟩
  · intro cf p prest s hwf
    constructor
    · constructor
      · intro hok
        by_contra hcon
        have hor : (channel_misaligned (p :: prest) s.qc
            || channel_misaligned (p :: prest) s.fs) = true := by
          cases hm1 : channel_misaligned (p :: prest) s.qc <;>
            cases hm2 : channel_misaligned (p :: prest) s.fs <;>
              simp_all
        rw [set_u2_err_of_misaligned cf p prest s hor] at hok
        simp [isError] at hok
      · rintro ⟨hm1, hm2⟩
        exact set_u2_ok_of_aligned cf p prest s hwf hm1 hm2
    · intro e herr
      have hor : (channel_misaligned (p :: prest) s.qc
          || channel_misaligned (p :: prest) s.fs) = true := by
        cases hm1 : channel_misaligned (p :: prest) s.qc <;>
          cases hm2 : channel_misaligned (p :: prest) s.fs
        · have hok := set_u2_ok_of_aligned cf p prest s hwf hm1 hm2
          rw [herr] at hok
          simp [isError] at hok
        all_goals simp [hm1, hm2]
      rw [set_u2_err_of_misaligned cf p prest s hor] at herr
      obtain rfl := Except.error.inj herr
      exact ⟨rfl, rfl⟩

/-- Witness for `C7_validation_amended` on the concrete misaligned
assignment `fs = [(2, 3), (1, 4)]` to `qcOnlyState`: the error names
exactly the qc channel and carries the unchanged probe. -/
theorem C7_witness :
    ∃ e, set_fs cfNone [((2 : ℚ), 3), (1, 4)] qcOnlyState = .error e ∧
      e.1 = mismatch_error_msg ["qc"] ∧ e.2 = qcOnlyState := by
  have hm1 : channel_misaligned [((2 : ℚ), 3), (1, 4)] qcOnlyState.qc
      = true := by
    norm_num [channel_misaligned, qcOnlyState, initCPT, depth_index]
  have hm2 : channel_misaligned [((2 : ℚ), 3), (1, 4)] qcOnlyState.u2
      = false := by
    norm_num [channel_misaligned, qcOnlyState, initCPT]
  have hwf : qcOnlyState.c_total_stress.isSome = true →
      ∃ x0 y0 uwr, qcOnlyState.unit_weight = some ((x0, y0) :: uwr) := by
    intro hcon
    simp [qcOnlyState, initCPT] at hcon
  have herr := set_fs_err_of_misaligned cfNone ((2 : ℚ), 3) [((1 : ℚ), 4)]
    qcOnlyState (by simp [hm1])
  have hres := (C7_validation_amended.2.1 cfNone ((2 : ℚ), 3)
    [((1 : ℚ), 4)] qcOnlyState hwf).2 _ herr
  refine ⟨_, herr, ?_, hres.2⟩
  rw [hres.1]
  simp [hm1, hm2]

/-! ## Claim C4 -/

/-- C4: the stale-u2 defect.  A 4-column bulk assignment (depths 0, 1)
followed by a 3-column bulk assignment (depths 5, 6) succeeds, but the
final probe keeps the OLD u2 channel at depths 0 and 1 while qc and fs
sit at depths 5 and 6: the 3-column `raw_data` setter does not replace
(or remove) a previously present u2, so the set-identity invariant over
the present raw channels is broken by a successful mutation. -/
theorem C4_stale_u2 :
    c4Run = .ok c4RunResult ∧
    c4RunResult.u2 = some [(0, 3), (1, 3)] ∧
    c4RunResult.qc = some [(5, 1), (6, 1)] ∧
    ¬ (∀ x : ℚ, x ∈ depth_index [((0 : ℚ), 3), (1, 3)]
        ↔ x ∈ depth_index [((5 : ℚ), 1), (6, 1)]) := by
  refine ⟨?_, rfl, rfl, ?_⟩
  · have h1 : set_raw_data cfNone c4Rows1 initCPT = .ok c1SetRawResult := by
      norm_num [set_raw_data, c4Rows1, initCPT, c1SetRawResult, list_max,
        listener_dependency, clear_dep, del_classification, List.getD]
    have h2 : set_raw_data cfNone c4Rows2 c1SetRawResult
        = .ok c4RunResult := by
      norm_num [set_raw_data, c4Rows2, initCPT, c1SetRawResult,
        c4RunResult, list_max, listener_dependency, clear_dep,
        del_classification, List.getD]
    simp [c4Run, h1, h2]
  · intro hcon
    have h0 := (hcon 0).1 (by simp [depth_index])
    norm_num [depth_index] at h0

/-! ## Claim C5 -/

/-- C5: the Bq-without-u2 defect.  On `bqCexState` — qc present, a
unit-weight profile present, a static groundwater level present, but no
u2 channel — reading `Bq` does not return an all-undefined series: the
getter builds the NaN series on a dead branch, keeps going, and the
unconditional `self.u2` read raises the missing-prerequisite error. -/
theorem C5_bq_error :
    bqCexState.qc.isSome = true ∧ bqCexState.unit_weight.isSome = true ∧
    bqCexState.gwl.isSome = true ∧ bqCexState.u2 = none ∧
    errMsg (Bq_get cfNone bqCexState)
      = some "Pore pressure, u2, is not yet defined." := by
  refine ⟨rfl, rfl, rfl, rfl, ?_⟩
  norm_num [Bq_get, bqCexState, initCPT, qt_get, total_stress_get,
    calculate_stress, calculate_total_stress, calculate_effective_stress,
    cpt_depth_source, depth_index, total_stress_values, nudge_unit_weight,
    nudge_aux, np_interp, cumsum, cumsum_from, u0_series, series_sub,
    GLOBAL_unit_weight_of_water, errMsg, cfNone]
  simp [errMsg]

/-! ## Claim C10 -/

/-- C10: for the Eslami Fellenius method the compare data of every depth
sample is x = fs and y = qt − u2/1000 when a u2 channel is present, else
y = qt; the effective cone resistance appears only inside the stored
per-classification graph data, and beyond the three classification
fields the resulting probe is exactly the probe left by the `qt`
property read (which may at most fill the `qt` cache). -/
theorem C10_eslami_graph_data (zones : List Zone) (s s1 s2 : CPTState)
    (qcv fsv qtv : Series)
    (hqc : s.qc = some qcv) (hfs : s.fs = some fsv)
    (hqt : qt_get s = .ok (qtv, s2))
    (hok : calculate_soil_classification_eslami zones s = .ok s1) :
    (∀ u2v, s.u2 = some u2v →
      s1 = { s2 with
               soil_classification_method := some "Eslami Fellenius",
               c_soil_classification := some (List.zip (depth_index qcv)
                 (soil_zone_numbers "Eslami Fellenius" [zones]
                   qcv.length)),
               c_graph_data := some (List.zip (depth_index qcv)
                 (List.zip (List.map Prod.snd fsv)
                   (List.map Prod.snd (List.zipWith
                     (fun pq pu => (pq.1, pq.2 - pu.2 / 1000))
                     qtv u2v)))) }) ∧
    (s.u2 = none →
      s1 = { s2 with
               soil_classification_method := some "Eslami Fellenius",
               c_soil_classification := some (List.zip (depth_index qcv)
                 (soil_zone_numbers "Eslami Fellenius" [zones]
                   qcv.length)),
               c_graph_data := some (List.zip (depth_index qcv)
                 (List.zip (List.map Prod.snd fsv)
                   (List.map Prod.snd qtv))) }) := by
  constructor
  · intro u2v hu2
    simp only [calculate_soil_classification_eslami, eslami_compare_data,
      hqc, hfs, hu2, hqt] at hok
    exact (Except.ok.inj hok).symm
  · intro hu2
    simp only [calculate_soil_classification_eslami, eslami_compare_data,
      hqc, hfs, hu2, hqt] at hok
    exact (Except.ok.inj hok).symm

/-- Witness for `C10_eslami_graph_data` on the concrete piezocone probe
`eslamiState` (qc = 2, fs = 3, u2 = 1000 at depth 1, no area ratio):
the stored graph-data point is (1, 3, 2 − 1000/1000) = (1, 3, 1). -/
theorem C10_witness :
    ∃ s1, calculate_soil_classification_eslami [] eslamiState = .ok s1 ∧
      s1.c_graph_data = some [(1, 3, 1)] := by
  have hqt : qt_get eslamiState = .ok ([(1, 2)], eslamiState) := rfl
  have hok : calculate_soil_classification_eslami [] eslamiState
      = .ok { eslamiState with
                soil_classification_method := some "Eslami Fellenius",
                c_soil_classification := some [(1, none)],
                c_graph_data := some [(1, 3, 1)] } := by
    norm_num [calculate_soil_classification_eslami, eslami_compare_data,
      qt_get, eslamiState, initCPT, depth_index, soil_zone_numbers,
      process_graphs, process_graph, fixup_R86, METHOD_R86]
  have h3 := (C10_eslami_graph_data [] eslamiState _ eslamiState
    [(1, 2)] [(1, 3)] [(1, 2)] rfl rfl hqt hok).1 [(1, 1000)] rfl
  refine ⟨_, hok, ?_⟩
  rw [h3]
  norm_num [depth_index, soil_zone_numbers, process_graphs, process_graph,
    fixup_R86, METHOD_R86]

/-! ## Claim C3 -/

theorem process_zone_snd (m : String)
    (st : List (Option String) × Option (List Nat)) (z : Zone)
    (h : ¬(m = METHOD_R86 ∧ z.zone_no = COMBINED_ZONE)) :
    (process_zone m st z).2 = st.2 := by
  by_cases h1 : (zone_inbounds st.1 z).isEmpty = true
  · simp only [process_zone]
    rw [if_pos h1]
  · simp only [process_zone]
    rw [if_neg h1, if_neg h]

theorem process_zone_fst_len (m : String)
    (st : List (Option String) × Option (List Nat)) (z : Zone) :
    (process_zone m st z).1.length = st.1.length := by
  by_cases h1 : (zone_inbounds st.1 z).isEmpty = true
  · simp only [process_zone]
    rw [if_pos h1]
  · by_cases h2 : m = METHOD_R86 ∧ z.zone_no = COMBINED_ZONE
    · simp only [process_zone]
      rw [if_neg h1, if_pos h2]
    · simp only [process_zone]
      rw [if_neg h1, if_neg h2]
      simp [assign_zone]

theorem process_graph_snd (m : String) (g : List Zone) :
    ∀ st, (∀ z ∈ g, ¬(m = METHOD_R86 ∧ z.zone_no = COMBINED_ZONE)) →
      (process_graph m st g).2 = st.2 := by
  induction g with
  | nil => intro st _; rfl
  | cons z t ih =>
    intro st hg
    simp only [process_graph, List.foldl_cons]
    have h2 := ih (process_zone m st z)
      (fun z' hz' => hg z' (List.mem_cons_of_mem _ hz'))
    simp only [process_graph] at h2
    rw [h2, process_zone_snd m st z (hg z (List.mem_cons_self _ _))]

theorem process_graph_len (m : String) (g : List Zone) :
    ∀ st, (process_graph m st g).1.length = st.1.length := by
  induction g with
  | nil => intro st; rfl
  | cons z t ih =>
    intro st
    simp only [process_graph, List.foldl_cons]
    have h2 := ih (process_zone m st z)
    simp only [process_graph] at h2
    rw [h2, process_zone_fst_len]

theorem fixup_R86_getD (a : List (Option String)) (l : List Nat) (i : Nat)
    (hi : i < a.length) :
    (fixup_R86 METHOD_R86 (a, some l)).getD i none
      = (if l.contains i then
           (if concrete_zones_9_12.contains (a.getD i none)
            then a.getD i none else some COMBINED_ZONE)
         else a.getD i none) := by
  simp only [fixup_R86, eq_self_iff_true, if_true]
  rw [List.getD_eq_getElem _ _ (by simpa using hi), List.getElem_map,
    List.getElem_enum, List.getD_eq_getElem _ _ hi]

/-- C3: under the Robertson et al 1986 method, processing the combined
zone labelled "9,10,11,12" assigns nothing and defers exactly the
polygon hits among the still-unassigned in-bounds samples; after both
graphs are processed, every deferred sample that ended up carrying a
concrete zone 9, 10, 11 or 12 keeps it, every other deferred sample is
finalized as "9,10,11,12", and every non-deferred sample keeps its
end-of-pass assignment. -/
theorem C3_combined_zone_deferral (g1pre g1post g2 : List Zone)
    (comb : Zone) (n : Nat)
    (hcomb : comb.zone_no = COMBINED_ZONE)
    (hpre : ∀ z ∈ g1pre, z.zone_no ≠ COMBINED_ZONE)
    (hpost : ∀ z ∈ g1post, z.zone_no ≠ COMBINED_ZONE)
    (hg2 : ∀ z ∈ g2, z.zone_no ≠ COMBINED_ZONE)
    (hne : (zone_inbounds (process_graph METHOD_R86
        (List.replicate n none, none) g1pre).1 comb).isEmpty = false) :
    process_zone METHOD_R86
        (process_graph METHOD_R86
          (List.replicate n none, none) g1pre) comb
      = ((process_graph METHOD_R86
            (List.replicate n none, none) g1pre).1,
         some (zone_polygon_hits
           (process_graph METHOD_R86
             (List.replicate n none, none) g1pre).1 comb)) ∧
    ∀ i, i < n →
      (soil_zone_numbers METHOD_R86 [g1pre ++ comb :: g1post, g2] n).getD
          i none
        = (if (zone_polygon_hits
              (process_graph METHOD_R86
                (List.replicate n none, none) g1pre).1 comb).contains i
           then
             (if concrete_zones_9_12.contains
                  ((process_graphs METHOD_R86 [g1pre ++ comb :: g1post, g2]
                    (List.replicate n none, none)).1.getD i none)
              then (process_graphs METHOD_R86
                    [g1pre ++ comb :: g1post, g2]
                    (List.replicate n none, none)).1.getD i none
              else some COMBINED_ZONE)
           else (process_graphs METHOD_R86 [g1pre ++ comb :: g1post, g2]
                 (List.replicate n none, none)).1.getD i none) := by
  have hdef : process_zone METHOD_R86
      (process_graph METHOD_R86
        (List.replicate n none, none) g1pre) comb
    = ((process_graph METHOD_R86
         (List.replicate n none, none) g1pre).1,
       some (zone_polygon_hits
         (process_graph METHOD_R86
           (List.replicate n none, none) g1pre).1 comb)) := by
    simp only [process_zone, hne, hcomb, Bool.false_eq_true, if_false,
      if_true, eq_self_iff_true, true_and, and_self]
  refine ⟨hdef, ?_⟩
  have hpipe : process_graphs METHOD_R86 [g1pre ++ comb :: g1post, g2]
      (List.replicate n none, none)
    = process_graph METHOD_R86
        (process_graph METHOD_R86
          (process_zone METHOD_R86
            (process_graph METHOD_R86
              (List.replicate n none, none) g1pre) comb)
          g1post) g2 := by
    simp only [process_graphs, process_graph, List.foldl_cons,
      List.foldl_nil, List.foldl_append]
  have h2nd : (process_graphs METHOD_R86 [g1pre ++ comb :: g1post, g2]
      (List.replicate n none, none)).2
    = some (zone_polygon_hits
        (process_graph METHOD_R86
          (List.replicate n none, none) g1pre).1 comb) := by
    rw [hpipe,
      process_graph_snd METHOD_R86 g2 _ (fun z hz hc => hg2 z hz hc.2),
      process_graph_snd METHOD_R86 g1post _
        (fun z hz hc => hpost z hz hc.2),
      hdef]
  have hlen : (process_graphs METHOD_R86 [g1pre ++ comb :: g1post, g2]
      (List.replicate n none, none)).1.length = n := by
    rw [hpipe, process_graph_len, process_graph_len, process_zone_fst_len,
      process_graph_len]
    simp
  have hpair : process_graphs METHOD_R86 [g1pre ++ comb :: g1post, g2]
      (List.replicate n none, none)
    = ((process_graphs METHOD_R86 [g1pre ++ comb :: g1post, g2]
        (List.replicate n none, none)).1,
       some (zone_polygon_hits
         (process_graph METHOD_R86
           (List.replicate n none, none) g1pre).1 comb)) := by
    rw [← h2nd]
  intro i hi
  have hi' : i < (process_graphs METHOD_R86 [g1pre ++ comb :: g1post, g2]
      (List.replicate n none, none)).1.length := by
    rw [hlen]; exact hi
  have hfix := fixup_R86_getD
    (process_graphs METHOD_R86 [g1pre ++ comb :: g1post, g2]
      (List.replicate n none, none)).1
    (zone_polygon_hits
      (process_graph METHOD_R86
        (List.replicate n none, none) g1pre).1 comb)
    i hi'
  have hszn : soil_zone_numbers METHOD_R86 [g1pre ++ comb :: g1post, g2] n
      = fixup_R86 METHOD_R86
          ((process_graphs METHOD_R86 [g1pre ++ comb :: g1post, g2]
            (List.replicate n none, none)).1,
           some (zone_polygon_hits
             (process_graph METHOD_R86
               (List.replicate n none, none) g1pre).1 comb)) := by
    simp only [soil_zone_numbers]
    rw [hpair]
  rw [hszn, hfix]

/-- Witness for `C3_combined_zone_deferral` on a miniature atlas: the
combined zone defers both samples of a 2-sample probe, the second graph
assigns the concrete zone "9" to sample 0 only, and the fixup finalizes
the other deferred sample as "9,10,11,12". -/
theorem C3_witness :
    (zone_inbounds (process_graph METHOD_R86
        (List.replicate 2 none, none) []).1 c3Comb).isEmpty = false ∧
    (soil_zone_numbers METHOD_R86 [[] ++ c3Comb :: [], [c3Zone9]] 2).getD
        1 none = some COMBINED_ZONE := by
  have hne : (zone_inbounds (process_graph METHOD_R86
      (List.replicate 2 none, none) []).1 c3Comb).isEmpty = false := rfl
  refine ⟨hne, ?_⟩
  have h := (C3_combined_zone_deferral [] [] [c3Zone9] c3Comb 2 rfl
    (by simp) (by simp)
    (by intro z hz
        rw [List.mem_singleton] at hz
        subst hz
        decide)
    hne).2 1 (by norm_num)
  rw [h]
  decide

end BoreholeInterpreter
